import Mathlib

/-!
Shallow embedding of the libcaer event-decoder core (src/edvs.c and
src/dv_explorer.c): timestamp reconstruction, event decoding, packet and
container management, and delivery to the exchange ring-buffer.

Machine integers are modelled as `Nat`/`Int`; the C code guards all paths
against 32-bit overflow (the big-wrap checks), so plain integer arithmetic is
faithful on every reachable state.  Heap allocation and the ring-buffer are
modelled by boolean oracles (`Env`): `true` means the corresponding
malloc/realloc or ring-buffer put succeeds.  Logging calls are modelled as an
emitted list of log tags, each mapped to its source severity.
-/

namespace Libcaer

/-- Log severities, from enum caer_log_level. -/
inductive LogSeverity
  | emergency
  | alert
  | critical
  | error
  | warning
  | notice
  | info
  | debug
deriving DecidableEq, Repr

/-- INT32_MAX. -/
def int32Max : Int := 2147483647

/-- Subtypes of special events appearing in the two translators
(enum caer_special_event_types). -/
inductive SpecialType
  | timestampWrap
  | timestampReset
  | externalInputFallingEdge
  | externalInputRisingEdge
  | externalInputPulse
  | externalGeneratorFallingEdge
  | externalGeneratorRisingEdge
deriving DecidableEq, Repr

/-- A special (control/marker) event: timestamp plus subtype.  The valid bit
set by caerSpecialEventValidate is constantly true for every event the
translators emit and is therefore omitted. -/
structure SpecialEvent where
  timestamp : Int
  typ : SpecialType
deriving DecidableEq, Repr

/-- A polarity (pixel) event. -/
structure PolarityEvent where
  timestamp : Int
  x : Nat
  y : Nat
  polarity : Bool
deriving DecidableEq, Repr

/-- An event packet: a growable array of events of one type.  `capacity` is the
allocated slot count; `events` the slots written so far (the packet position is
tracked separately in the decoder state, as in the C code). -/
structure CaerPacket (ev : Type) where
  capacity : Nat
  events : List ev
deriving DecidableEq, Repr

/-- Modelled from the spec: TS_OVERFLOW_SHIFT is defined in a header that is
not among the sources.  Per the spec glossary the overflow epoch forms the
high bits of a wider logical timestamp above the 31-bit in-packet timestamp. -/
def TS_OVERFLOW_SHIFT : Nat := 31

/-- generateFullTimestamp from src/edvs.c: the overflow epoch shifted above the
31-bit timestamp, combined by bitwise or. -/
def generateFullTimestamp (tsOverflow timestamp : Int) : Int :=
  Int.ofNat ((tsOverflow.toNat <<< TS_OVERFLOW_SHIFT) ||| timestamp.toNat)

/-- The deadline re-arm loop of the time-based commit trigger:
`while (full > deadline) deadline += interval`.  The `0 < interval` guard makes
the definition total; the C loop does not terminate for a non-positive
configured interval, which the configuration layer excludes. -/
def rearmCommitTimestamp (full interval deadline : Int) : Int :=
  if _h : 0 < interval ∧ deadline < full then
    rearmCommitTimestamp full interval (deadline + interval)
  else deadline
termination_by (full - deadline).toNat
decreasing_by
  simp_wf
  omega

/-- After the re-arm loop, the deadline is no longer in the past relative to
the full reconstructed timestamp. -/
theorem le_rearmCommitTimestamp (full interval deadline : Int)
    (hInt : 0 < interval) : full ≤ rearmCommitTimestamp full interval deadline := by
  unfold rearmCommitTimestamp
  split
  · exact le_rearmCommitTimestamp full interval (deadline + interval) hInt
  · rename_i h
    rcases not_and_or.mp h with h1 | h1
    · omega
    · omega
termination_by (full - deadline).toNat
decreasing_by
  simp_wf
  omega

end Libcaer

namespace Libcaer.Edvs

/-! ## The eDVS serial-protocol translator (src/edvs.c, edvsEventTranslator)

The on-wire token is a fixed 4-byte record: yByte (high bit = alignment
marker), xByte (high bit = polarity, low 7 bits = x), and a 16-bit timestamp
field.  All of the translator, including its timestamp reconstruction and
container commit logic, is in src/edvs.c. -/

open Libcaer

def TS_WRAP_ADD : Int := 0x10000
def HIGH_BIT_MASK : Nat := 0x80
def LOW_BITS_MASK : Nat := 0x7F

/-- The timestamp reconstruction state (state->timestamps in src/edvs.c). -/
structure Timestamps where
  wrapOverflow : Int
  wrapAdd : Int
  lastShort : Int
  last : Int
  current : Int
deriving DecidableEq, Repr

/-- Modelled from the spec: EDVS_ARRAY_SIZE_X/Y and the default packet sizes
are defined in edvs.h, which is not among the sources.  The spec calls them
the configured sensor resolution and the packets' fixed initial capacity. -/
structure Config where
  arraySizeX : Nat
  arraySizeY : Nat
  polarityDefaultSize : Nat
  specialDefaultSize : Nat
deriving DecidableEq, Repr

/-- The decoder state owned by the serial thread (part of struct edvs_state
used by edvsEventTranslator). -/
structure State where
  timestamps : Timestamps
  containerAllocated : Bool
  currentPolarityPacket : Option (CaerPacket PolarityEvent)
  currentPolarityPacketPosition : Nat
  currentSpecialPacket : Option (CaerPacket SpecialEvent)
  currentSpecialPacketPosition : Nat
  currentPacketContainerCommitTimestamp : Int
  maxPacketContainerInterval : Int
  maxPacketContainerPacketSize : Int
  dvsTSReset : Bool
  running : Bool
  config : Config
deriving DecidableEq, Repr

/-- Tags for every edvsLog call on the modelled paths. -/
inductive Log
  | dataNotAligned
  | allocContainerFailed
  | allocPolarityFailed
  | growPolarityFailed
  | allocSpecialFailed
  | growSpecialFailed
  | nonMonotonicTimestamp
  | xOutOfRange
  | yOutOfRange
  | droppedContainerRingFull
  | allocTsResetContainerFailed
  | allocTsResetPacketFailed
deriving DecidableEq, Repr

/-- The severity each log tag is emitted with in src/edvs.c. -/
def Log.severity : Log → LogSeverity
  | .dataNotAligned => .notice
  | .allocContainerFailed => .critical
  | .allocPolarityFailed => .critical
  | .growPolarityFailed => .critical
  | .allocSpecialFailed => .critical
  | .growSpecialFailed => .critical
  | .nonMonotonicTimestamp => .alert
  | .xOutOfRange => .alert
  | .yOutOfRange => .alert
  | .droppedContainerRingFull => .notice
  | .allocTsResetContainerFailed => .critical
  | .allocTsResetPacketFailed => .critical

/-- A committed packet container: one slot per event type, absent if empty. -/
structure Container where
  polarity : Option (List PolarityEvent)
  special : Option (List SpecialEvent)
deriving DecidableEq, Repr

/-- Per-token allocation and ring-buffer oracles: `true` means the
corresponding malloc/realloc or dataExchangePut succeeds. -/
structure Env where
  allocContainerOk : Bool
  allocPolarityOk : Bool
  growPolarityOk : Bool
  allocSpecialOk : Bool
  growSpecialOk : Bool
  putOk : Bool
  allocTsResetContainerOk : Bool
  allocTsResetPacketOk : Bool
deriving DecidableEq, Repr

/-- The all-successful environment. -/
def Env.ok : Env := ⟨true, true, true, true, true, true, true, true⟩

/-- Result of translating one 4-byte token. -/
structure StepResult where
  state : State
  delivered : List Container
  logs : List Log
  aborted : Bool
  tsReset : Bool
  tsBigWrap : Bool
  containerSizeCommit : Bool
  containerTimeCommit : Bool
deriving DecidableEq, Repr

/-- initContainerCommitTimestamp from src/edvs.c. -/
def initContainerCommitTimestamp (st : State) : State :=
  if st.currentPacketContainerCommitTimestamp = -1 then
    { st with currentPacketContainerCommitTimestamp :=
        st.timestamps.current + st.maxPacketContainerInterval - 1 }
  else st

/-- Lazy allocation, or growth to double capacity when full, of one in-progress
packet at the top of the token loop.  `none` in the first component signals an
allocation failure (the C code logs and returns). -/
def allocOrGrow {ev : Type} (pkt : Option (CaerPacket ev)) (position defaultSize : Nat)
    (allocOk growOk : Bool) (allocLog growLog : Log) :
    Option (CaerPacket ev) × List Log :=
  match pkt with
  | none => if allocOk then (some ⟨defaultSize, []⟩, []) else (none, [allocLog])
  | some p =>
    if p.capacity ≤ position then
      if growOk then (some ⟨position * 2, p.events⟩, []) else (none, [growLog])
    else (some p, [])

/-- The allocation preamble of one loop iteration in edvsEventTranslator:
container, polarity packet, special packet, in source order.  The boolean is
false when an allocation failed (the translator then returns, abandoning the
rest of the buffer). -/
def allocatePackets (env : Env) (st : State) : State × List Log × Bool :=
  if !st.containerAllocated && !env.allocContainerOk then
    (st, [Log.allocContainerFailed], false)
  else
    let st0 := { st with containerAllocated := true }
    match allocOrGrow st0.currentPolarityPacket st0.currentPolarityPacketPosition
        st0.config.polarityDefaultSize env.allocPolarityOk env.growPolarityOk
        Log.allocPolarityFailed Log.growPolarityFailed with
    | (none, logs) => (st0, logs, false)
    | (some p, _) =>
      let st1 := { st0 with currentPolarityPacket := some p }
      match allocOrGrow st1.currentSpecialPacket st1.currentSpecialPacketPosition
          st1.config.specialDefaultSize env.allocSpecialOk env.growSpecialOk
          Log.allocSpecialFailed Log.growSpecialFailed with
      | (none, logs) => (st1, logs, false)
      | (some q, _) => ({ st1 with currentSpecialPacket := some q }, [], true)

/-- The timestamp-reset / big-wrap / normal-advance trunk of one token,
returning (state, tsReset, tsBigWrap, logs).  Follows src/edvs.c lines
788-880: the TS-reset flag zeroes the whole timestamp state and defers the
reset event to the commit stage; a wrap at the top of the 32-bit range is the
big wrap (epoch increment, sentinel event); otherwise the narrow field is
expanded to `wrapAdd + shortTS` and the pixel event is range-checked and
appended. -/
def tokenTimestampAndEvent (st : State) (yByte xByte ts1Byte ts2Byte : Nat) :
    State × Bool × Bool × List Log :=
  let shortTS : Int := (((ts1Byte <<< 8) ||| ts2Byte : Nat) : Int)
  if st.dvsTSReset then
    -- the serial "!ET0" reset command write is external I/O, not modelled
    let st1 := { st with
      timestamps := ⟨0, 0, 0, 0, 0⟩,
      dvsTSReset := false,
      currentPacketContainerCommitTimestamp := -1 }
    (initContainerCommitTimestamp st1, true, false, [])
  else
    if shortTS < st.timestamps.lastShort then
      if st.timestamps.wrapAdd = int32Max - (TS_WRAP_ADD - 1) then
        -- big wrap: reset offsets, bump the epoch, append the sentinel
        let sp := st.currentSpecialPacket.getD ⟨0, []⟩
        let st1 := { st with
          timestamps := ⟨st.timestamps.wrapOverflow + 1, 0, 0, 0, 0⟩,
          currentSpecialPacket :=
            some { sp with events := sp.events ++ [⟨int32Max, SpecialType.timestampWrap⟩] },
          currentSpecialPacketPosition := st.currentSpecialPacketPosition + 1 }
        (st1, false, true, [])
      else
        -- small wrap: coarse offset advances by the narrow field's range
        tokenPixel st (st.timestamps.wrapAdd + TS_WRAP_ADD) 0 shortTS yByte xByte
    else
      tokenPixel st st.timestamps.wrapAdd shortTS shortTS yByte xByte
where
  /-- Common tail of the small-wrap and normal branches: expand to 32 bits,
  check monotonicity, range-check and append the pixel event. -/
  tokenPixel (st : State) (wrapAddNew lastShortNew shortTS : Int) (yByte xByte : Nat) :
      State × Bool × Bool × List Log :=
    let current := wrapAddNew + shortTS
    let st1 := { st with timestamps :=
      { wrapOverflow := st.timestamps.wrapOverflow,
        wrapAdd := wrapAddNew,
        lastShort := lastShortNew,
        last := st.timestamps.current,
        current := current } }
    let st2 := initContainerCommitTimestamp st1
    let monoLogs := if current < st.timestamps.current then [Log.nonMonotonicTimestamp] else []
    let x := xByte &&& LOW_BITS_MASK
    let y := yByte &&& LOW_BITS_MASK
    let polarity := decide (xByte &&& HIGH_BIT_MASK ≠ 0)
    if x < st.config.arraySizeX ∧ y < st.config.arraySizeY then
      let pp := st2.currentPolarityPacket.getD ⟨0, []⟩
      let st3 := { st2 with
        currentPolarityPacket := some { pp with events := pp.events ++ [⟨current, x, y, polarity⟩] },
        currentPolarityPacketPosition := st2.currentPolarityPacketPosition + 1 }
      (st3, false, false, monoLogs)
    else
      let logs := monoLogs
        ++ (if st.config.arraySizeX ≤ x then [Log.xOutOfRange] else [])
        ++ (if st.config.arraySizeY ≤ y then [Log.yOutOfRange] else [])
      (st2, false, false, logs)

/-- The container-commit stage of one token (src/edvs.c lines 882-989):
evaluate the size, time and forced triggers; on commit move the non-empty
packets into the container, re-arm the time deadline when the time trigger
fired, discard a completely empty container, otherwise put it on the exchange
ring (dropping it with a log when the ring is full); after a TS reset, force
a container holding only the Special(TIMESTAMP_RESET) event. -/
def commitLogic (env : Env) (st : State) (tsReset tsBigWrap : Bool) : StepResult :=
  let fullTS := generateFullTimestamp st.timestamps.wrapOverflow st.timestamps.current
  let commitSize := st.maxPacketContainerPacketSize
  let containerSizeCommit := decide (0 < commitSize)
    && (decide (commitSize ≤ (st.currentPolarityPacketPosition : Int))
        || decide (commitSize ≤ (st.currentSpecialPacketPosition : Int)))
  let containerTimeCommit := decide (st.currentPacketContainerCommitTimestamp < fullTS)
  if tsReset || tsBigWrap || containerSizeCommit || containerTimeCommit then
    let polPart : Option (List PolarityEvent) :=
      if 0 < st.currentPolarityPacketPosition then
        some (st.currentPolarityPacket.getD ⟨0, []⟩).events
      else none
    let spPart : Option (List SpecialEvent) :=
      if 0 < st.currentSpecialPacketPosition then
        some (st.currentSpecialPacket.getD ⟨0, []⟩).events
      else none
    let st1 := { st with
      currentPolarityPacket := if polPart.isSome then none else st.currentPolarityPacket,
      currentPolarityPacketPosition := if polPart.isSome then 0 else st.currentPolarityPacketPosition,
      currentSpecialPacket := if spPart.isSome then none else st.currentSpecialPacket,
      currentSpecialPacketPosition := if spPart.isSome then 0 else st.currentSpecialPacketPosition }
    let rearmed := rearmCommitTimestamp fullTS st.maxPacketContainerInterval
      st.currentPacketContainerCommitTimestamp
    let st2 := if containerTimeCommit then
        { st1 with currentPacketContainerCommitTimestamp := rearmed }
      else st1
    let deliverNormal :=
      if polPart.isNone && spPart.isNone then
        (([] : List Container), ([] : List Log))
      else if env.putOk then
        ([Container.mk polPart spPart], ([] : List Log))
      else
        ([], [Log.droppedContainerRingFull])
    let st3 := { st2 with containerAllocated := false }
    if tsReset then
      if !env.allocTsResetContainerOk then
        ⟨st3, deliverNormal.1, deliverNormal.2 ++ [Log.allocTsResetContainerFailed], true,
          tsReset, tsBigWrap, containerSizeCommit, containerTimeCommit⟩
      else if !env.allocTsResetPacketOk then
        ⟨st3, deliverNormal.1, deliverNormal.2 ++ [Log.allocTsResetPacketFailed], true,
          tsReset, tsBigWrap, containerSizeCommit, containerTimeCommit⟩
      else
        ⟨st3, deliverNormal.1 ++ [⟨none, some [⟨int32Max, SpecialType.timestampReset⟩]⟩],
          deliverNormal.2, false, tsReset, tsBigWrap, containerSizeCommit, containerTimeCommit⟩
    else
      ⟨st3, deliverNormal.1, deliverNormal.2, false,
        tsReset, tsBigWrap, containerSizeCommit, containerTimeCommit⟩
  else
    ⟨st, [], [], false, tsReset, tsBigWrap, containerSizeCommit, containerTimeCommit⟩

/-- Translate one complete aligned 4-byte token. -/
def processToken (env : Env) (st : State) (yByte xByte ts1Byte ts2Byte : Nat) : StepResult :=
  match allocatePackets env st with
  | (st1, logs, false) => ⟨st1, [], logs, true, false, false, false, false⟩
  | (st1, _, true) =>
    let r := tokenTimestampAndEvent st1 yByte xByte ts1Byte ts2Byte
    let out := commitLogic env r.1 r.2.1 r.2.2.1
    { out with logs := r.2.2.2 ++ out.logs }

/-- Accumulated result of translating a whole raw chunk. -/
structure Output where
  state : State
  delivered : List Container
  logs : List Log
deriving DecidableEq, Repr

/-- The byte loop of edvsEventTranslator: skip (with a notice log) bytes whose
high alignment bit is clear; stop, without a log, when fewer than 4 bytes
remain for the next token; otherwise translate the 4-byte token and continue,
or abandon the rest of the buffer when the token aborted on an allocation
failure. -/
def translateLoop : List Env → State → List Nat → Output
  | _, st, [] => ⟨st, [], []⟩
  | envs, st, yByte :: rest =>
    if yByte &&& HIGH_BIT_MASK ≠ HIGH_BIT_MASK then
      let o := translateLoop envs st rest
      ⟨o.state, o.delivered, Log.dataNotAligned :: o.logs⟩
    else
      match rest with
      | xByte :: ts1 :: ts2 :: rest2 =>
        let r := processToken (envs.headD Env.ok) st yByte xByte ts1 ts2
        if r.aborted then ⟨r.state, r.delivered, r.logs⟩
        else
          let o := translateLoop envs.tail r.state rest2
          ⟨o.state, r.delivered ++ o.delivered, r.logs ++ o.logs⟩
      | _ => ⟨st, [], []⟩

/-- edvsEventTranslator: return immediately when the stream is no longer
running, otherwise run the token loop. -/
def edvsEventTranslator (envs : List Env) (st : State) (buffer : List Nat) : Output :=
  if !st.running then ⟨st, [], []⟩ else translateLoop envs st buffer

/-- The in-progress packet positions are consistent with the packets' written
events: an absent packet has position 0, a present one has its event count as
position. -/
def State.wellFormed (st : State) : Prop :=
  (st.currentPolarityPacket = none → st.currentPolarityPacketPosition = 0) ∧
  (∀ p, st.currentPolarityPacket = some p → st.currentPolarityPacketPosition = p.events.length) ∧
  (st.currentSpecialPacket = none → st.currentSpecialPacketPosition = 0) ∧
  (∀ p, st.currentSpecialPacket = some p → st.currentSpecialPacketPosition = p.events.length)

end Libcaer.Edvs

namespace Libcaer.Dvx

/-! ## The DV Explorer USB-protocol translator (src/dv_explorer.c,
dvExplorerEventTranslator)

The on-wire token is a little-endian 16-bit tagged word.  The translator
itself, the IMU composite-sample assembly, the pixel-group decoding and the
commit trigger evaluation are all in src/dv_explorer.c; the timestamp
handlers (handleTimestamp*NewLogic) and the containerGeneration/dataExchange
helpers live in private headers that are not among the sources and are
modelled from the spec where noted. -/

open Libcaer

def TS_WRAP_ADD : Int := 0x8000

/-- Modelled from the spec: the IMU_TYPE_* bit flags and IMU_TOTAL_COUNT are
defined in dv_explorer.h, which is not among the sources.  The spec (§4.2)
says a configuration token declares which sub-sensors (accelerometer,
temperature, gyroscope) are enabled, and the END marker compares the position
counter against the expected total, which for the full accel(6) + temp(2) +
gyro(6) schedule of src/dv_explorer.c is 14. -/
def IMU_TYPE_TEMP : Nat := 0x01
def IMU_TYPE_GYRO : Nat := 0x02
def IMU_TYPE_ACCEL : Nat := 0x04
def IMU_TOTAL_COUNT : Nat := 14

/-- The timestamp reconstruction state.  Field names follow the spec's
TimestampState (§3); the concrete struct is in a private header not among the
sources. -/
structure Timestamps where
  wrapOverflow : Int
  wrapAdd : Int
  lastRaw : Int
  last : Int
  current : Int
deriving DecidableEq, Repr

/-- Tags for every dvExplorerLog call on the modelled paths. -/
inductive Log
  | oddBufferLength
  | allocContainerFailed
  | allocSpecialFailed
  | allocPolarityFailed
  | allocImu6Failed
  | growPacketFailed
  | specialReservedEvent
  | externalInputFallingEdgeReceived
  | externalInputRisingEdgeReceived
  | externalInputPulseReceived
  | imu6StartReceived
  | imuEndReceived
  | imuEndCountMismatch
  | externalGeneratorFallingEdgeReceived
  | externalGeneratorRisingEdgeReceived
  | specialUnhandled
  | startOfFrameMarker
  | yOutOfRange
  | mgroupUnsupported
  | imuDataReceived
  | invalidImuSequence
  | imuScaleConfigReceived
  | noImuSensorsEnabled
  | misc8Unhandled
  | eventUnhandled
  | nonMonotonicTimestamp
  | droppedContainerRingFull
  | allocTsResetFailed
deriving DecidableEq, Repr

/-- The severity each log tag is emitted with in src/dv_explorer.c. -/
def Log.severity : Log → LogSeverity
  | .oddBufferLength => .alert
  | .allocContainerFailed => .critical
  | .allocSpecialFailed => .critical
  | .allocPolarityFailed => .critical
  | .allocImu6Failed => .critical
  | .growPacketFailed => .critical
  | .specialReservedEvent => .error
  | .externalInputFallingEdgeReceived => .debug
  | .externalInputRisingEdgeReceived => .debug
  | .externalInputPulseReceived => .debug
  | .imu6StartReceived => .debug
  | .imuEndReceived => .debug
  | .imuEndCountMismatch => .info
  | .externalGeneratorFallingEdgeReceived => .debug
  | .externalGeneratorRisingEdgeReceived => .debug
  | .specialUnhandled => .error
  | .startOfFrameMarker => .debug
  | .yOutOfRange => .alert
  | .mgroupUnsupported => .alert
  | .imuDataReceived => .debug
  | .invalidImuSequence => .error
  | .imuScaleConfigReceived => .debug
  | .noImuSensorsEnabled => .error
  | .misc8Unhandled => .error
  | .eventUnhandled => .error
  | .nonMonotonicTimestamp => .alert
  | .droppedContainerRingFull => .notice
  | .allocTsResetFailed => .critical

/-- Modelled from the spec: handleTimestampUpdateNewLogic is defined in a
private header not among the sources.  Spec §4.1 NORMAL: the 15-bit field
embedded in the tagged word continues within the current coarse offset,
`current = wrapAdd + field`, and the last raw field is recorded; a
non-monotonic step is logged as a non-fatal alert. -/
def handleTimestampUpdateNewLogic (ts : Timestamps) (tsData : Nat) :
    Timestamps × List Log :=
  let field : Int := ((tsData &&& 0x7FFF : Nat) : Int)
  let ts2 : Timestamps :=
    { ts with lastRaw := field, last := ts.current, current := ts.wrapAdd + field }
  (ts2, if ts2.current < ts2.last then [Log.nonMonotonicTimestamp] else [])

/-- Modelled from the spec: handleTimestampResetNewLogic is defined in a
private header not among the sources.  Spec §4.1 RESET zeroes all of
{wrapAdd, overflowEpoch, lastRaw, current}. -/
def handleTimestampResetNewLogic (_ts : Timestamps) : Timestamps :=
  ⟨0, 0, 0, 0, 0⟩

/-- Modelled from the spec: handleTimestampWrapNewLogic is defined in a
private header not among the sources.  Spec §4.1: SMALL_WRAP advances
`wrapAdd` by the narrow field's range (here per elapsed wrap counted by the
token's data field); BIG_WRAP fires when `wrapAdd` would overflow its 32-bit
representable range, incrementing the overflow epoch and resetting `wrapAdd`
and `lastRaw` to 0.  Returns the new state and whether a big wrap fired. -/
def handleTimestampWrapNewLogic (ts : Timestamps) (wrapData tsWrapAdd : Int) :
    Timestamps × Bool × List Log :=
  if int32Max - wrapData * tsWrapAdd < ts.wrapAdd then
    (⟨ts.wrapOverflow + 1, 0, 0, 0, 0⟩, true, [])
  else
    let wa := ts.wrapAdd + wrapData * tsWrapAdd
    let ts2 : Timestamps := { ts with wrapAdd := wa, last := ts.current, current := wa }
    (ts2, false, if ts2.current < ts2.last then [Log.nonMonotonicTimestamp] else [])

/-- Modelled from the spec: the containerGeneration state (a private header
not among the sources) holds the lazily allocated container, the commit
deadline and the configured thresholds (§4.3). -/
structure ContainerGen where
  allocated : Bool
  commitTimestamp : Int
  maxPacketInterval : Int
  maxPacketSize : Int
deriving DecidableEq, Repr

/-- Modelled from the spec: containerGenerationCommitTimestampReset puts the
commit deadline back into its unarmed (-1) state. -/
def containerGenerationCommitTimestampReset (cg : ContainerGen) : ContainerGen :=
  { cg with commitTimestamp := -1 }

/-- Modelled from the spec: containerGenerationCommitTimestampInit arms the
commit deadline, once, at `current + interval - 1` (mirroring the in-source
initContainerCommitTimestamp of src/edvs.c). -/
def containerGenerationCommitTimestampInit (cg : ContainerGen) (current : Int) :
    ContainerGen :=
  if cg.commitTimestamp = -1 then
    { cg with commitTimestamp := current + cg.maxPacketInterval - 1 }
  else cg

/-- Modelled from the spec: containerGenerationGetMaxPacketSize reads the
configured per-packet size threshold (0 disables the size trigger). -/
def containerGenerationGetMaxPacketSize (cg : ContainerGen) : Int :=
  cg.maxPacketSize

/-- Modelled from the spec: containerGenerationIsCommitTimestampElapsed is the
time trigger, comparing the full (epoch-extended) timestamp against the
deadline. -/
def containerGenerationIsCommitTimestampElapsed (cg : ContainerGen)
    (wrapOverflow current : Int) : Bool :=
  decide (cg.commitTimestamp < generateFullTimestamp wrapOverflow current)

/-- The raw flipped axis values of the composite IMU sample.  Axis and
temperature fields keep the raw 16-bit two's-complement integers after the
per-axis flip; scaling by the floating-point accel/gyro factors
(calculateIMUAccelScale/..., defined outside the sources) is floating-point
arithmetic and is not modelled — no claim depends on the scaled values. -/
structure Imu6Event where
  timestamp : Int
  accelX : Int
  accelY : Int
  accelZ : Int
  gyroX : Int
  gyroY : Int
  gyroZ : Int
  temp : Int
  valid : Bool
deriving DecidableEq, Repr

def Imu6Event.zero : Imu6Event := ⟨0, 0, 0, 0, 0, 0, 0, 0, false⟩

/-- The IMU assembly state (state->imu in src/dv_explorer.c).  `accelScaleSel`
and `gyroScaleSel` record the raw 2-bit scale selectors whose floating-point
interpretation is not modelled. -/
structure ImuState where
  ignoreEvents : Bool
  count : Nat
  tmpData : Nat
  typ : Nat
  accelScaleSel : Nat
  gyroScaleSel : Nat
  flipX : Bool
  flipY : Bool
  flipZ : Bool
  currentEvent : Imu6Event
deriving DecidableEq, Repr

/-- The DVS address state (state->dvs in src/dv_explorer.c). -/
structure DvsState where
  lastX : Nat
  lastY : Nat
  sizeX : Nat
  sizeY : Nat
  invertXY : Bool
deriving DecidableEq, Repr

/-- Modelled from the spec: the default packet sizes are defined in
dv_explorer.h, which is not among the sources (the spec calls them the fixed
initial capacity). -/
structure Config where
  specialDefaultSize : Nat
  polarityDefaultSize : Nat
  imuDefaultSize : Nat
deriving DecidableEq, Repr

/-- The decoder state used by dvExplorerEventTranslator. -/
structure State where
  timestamps : Timestamps
  container : ContainerGen
  specialPacket : Option (CaerPacket SpecialEvent)
  specialPosition : Nat
  polarityPacket : Option (CaerPacket PolarityEvent)
  polarityPosition : Nat
  imu6Packet : Option (CaerPacket Imu6Event)
  imu6Position : Nat
  dvs : DvsState
  imu : ImuState
  running : Bool
  config : Config
deriving DecidableEq, Repr

/-- A committed packet container: one slot per event type, absent if empty. -/
structure Container where
  polarity : Option (List PolarityEvent)
  special : Option (List SpecialEvent)
  imu6 : Option (List Imu6Event)
deriving DecidableEq, Repr

/-- Per-token allocation and ring-buffer oracles. -/
structure Env where
  allocContainerOk : Bool
  allocSpecialOk : Bool
  allocPolarityOk : Bool
  allocImu6Ok : Bool
  growSpecialOk : Bool
  growPolarityOk : Bool
  growImu6Ok : Bool
  putOk : Bool
  allocTsResetOk : Bool
deriving DecidableEq, Repr

/-- The all-successful environment. -/
def Env.ok : Env := ⟨true, true, true, true, true, true, true, true, true⟩

/-- Result of translating one 16-bit token. -/
structure StepResult where
  state : State
  delivered : List Container
  logs : List Log
  aborted : Bool
  tsReset : Bool
  tsBigWrap : Bool
  containerSizeCommit : Bool
  containerTimeCommit : Bool
deriving DecidableEq, Repr

/-- Reinterpret the low 16 bits as a signed 16-bit integer (C cast int16_t). -/
def toInt16 (n : Nat) : Int :=
  let m := n % 65536
  if m < 32768 then (m : Int) else (m : Int) - 65536

/-- 16-bit two's-complement wrap of an integer (C: I16T applied to a negated
int16, where negating -32768 wraps back to -32768). -/
def wrapInt16 (z : Int) : Int :=
  (z + 32768) % 65536 - 32768

/-- ensureSpaceForEvents from src/dv_explorer.c: if remaining capacity is
insufficient, grow to double the current capacity; on allocation failure log
at critical severity and report false (the triggering events are dropped). -/
def ensureSpaceForEvents {ev : Type} (p : CaerPacket ev) (position numEvents : Nat)
    (growOk : Bool) : CaerPacket ev × Bool × List Log :=
  if position + numEvents ≤ p.capacity then (p, true, [])
  else if growOk then ({ p with capacity := p.capacity * 2 }, true, [])
  else (p, false, [Log.growPacketFailed])

/-- Append one special event of the given subtype (the common body of the
external input/generator cases). -/
def appendSpecial (env : Env) (st : State) (typ : SpecialType) (dbg : Log) :
    State × List Log :=
  let p := st.specialPacket.getD ⟨0, []⟩
  let r := ensureSpaceForEvents p st.specialPosition 1 env.growSpecialOk
  if r.2.1 then
    ({ st with
        specialPacket := some { r.1 with events := r.1.events ++ [⟨st.timestamps.current, typ⟩] },
        specialPosition := st.specialPosition + 1 }, dbg :: r.2.2)
  else
    ({ st with specialPacket := some r.1 }, dbg :: r.2.2)

/-- One IMU data fragment (misc8 code 0): the switch on the position counter
from src/dv_explorer.c lines 1305-1401.  Even positions latch the high byte;
odd positions complete a 16-bit field; positions 5 and 7 additionally skip
ahead in the schedule according to which sub-sensors are enabled; the counter
is a uint8 and wraps mod 256. -/
def imuDataEvent (imu : ImuState) (misc8Data : Nat) : ImuState × List Log :=
  let step :=
    if imu.count = 0 ∨ imu.count = 2 ∨ imu.count = 4 ∨ imu.count = 6 ∨
        imu.count = 8 ∨ imu.count = 10 ∨ imu.count = 12 then
      ({ imu with tmpData := misc8Data }, ([] : List Log))
    else if imu.count = 1 then
      let v := toInt16 ((imu.tmpData <<< 8) ||| misc8Data)
      let v := if imu.flipX then wrapInt16 (-v) else v
      ({ imu with currentEvent := { imu.currentEvent with accelX := v } }, [])
    else if imu.count = 3 then
      let v := toInt16 ((imu.tmpData <<< 8) ||| misc8Data)
      let v := if imu.flipY then wrapInt16 (-v) else v
      ({ imu with currentEvent := { imu.currentEvent with accelY := v } }, [])
    else if imu.count = 5 then
      let v := toInt16 ((imu.tmpData <<< 8) ||| misc8Data)
      let v := if imu.flipZ then wrapInt16 (-v) else v
      let imu1 := { imu with currentEvent := { imu.currentEvent with accelZ := v } }
      let imu2 :=
        if imu1.typ &&& IMU_TYPE_TEMP = 0 then
          if imu1.typ &&& IMU_TYPE_GYRO ≠ 0 then { imu1 with count := (imu1.count + 2) % 256 }
          else { imu1 with count := (imu1.count + 8) % 256 }
        else imu1
      (imu2, [])
    else if imu.count = 7 then
      -- the °C conversion (temp / 512 + 23) is floating point; the raw value is kept
      let v := toInt16 ((imu.tmpData <<< 8) ||| misc8Data)
      let imu1 := { imu with currentEvent := { imu.currentEvent with temp := v } }
      let imu2 :=
        if imu1.typ &&& IMU_TYPE_GYRO = 0 then { imu1 with count := (imu1.count + 6) % 256 }
        else imu1
      (imu2, [])
    else if imu.count = 9 then
      let v := toInt16 ((imu.tmpData <<< 8) ||| misc8Data)
      let v := if imu.flipX then wrapInt16 (-v) else v
      ({ imu with currentEvent := { imu.currentEvent with gyroX := v } }, [])
    else if imu.count = 11 then
      let v := toInt16 ((imu.tmpData <<< 8) ||| misc8Data)
      let v := if imu.flipY then wrapInt16 (-v) else v
      ({ imu with currentEvent := { imu.currentEvent with gyroY := v } }, [])
    else if imu.count = 13 then
      let v := toInt16 ((imu.tmpData <<< 8) ||| misc8Data)
      let v := if imu.flipZ then wrapInt16 (-v) else v
      ({ imu with currentEvent := { imu.currentEvent with gyroZ := v } }, [])
    else
      (imu, [Log.invalidImuSequence])
  ({ step.1 with count := (step.1.count + 1) % 256 }, step.2)

/-- The IMU scale-configuration token (misc8 code 3): record the raw scale
selectors, the enabled-sensor type bits, and the schedule's starting position
for the enabled sub-sensors. -/
def imuScaleConfig (imu : ImuState) (data : Nat) : ImuState × List Log :=
  let typ := (data >>> 5) &&& 0x07
  let imu1 := { imu with
    accelScaleSel := (data >>> 2) &&& 0x03,
    gyroScaleSel := data &&& 0x03,
    typ := typ }
  if typ &&& IMU_TYPE_ACCEL ≠ 0 then
    ({ imu1 with count := 0 }, [Log.imuScaleConfigReceived])
  else if typ &&& IMU_TYPE_TEMP ≠ 0 then
    ({ imu1 with count := 6 }, [Log.imuScaleConfigReceived])
  else if typ &&& IMU_TYPE_GYRO ≠ 0 then
    ({ imu1 with count := 8 }, [Log.imuScaleConfigReceived])
  else
    ({ imu1 with count := 14 }, [Log.imuScaleConfigReceived, Log.noImuSensorsEnabled])

/-- The eight pixel events of one SGROUP presence/polarity token: bit i of the
mask (tested high bit first) yields an event at `lastX + i`, with X/Y swapped
when the invertXY flag is set. -/
def groupEvents (st : State) (data : Nat) (polarity : Bool) : List PolarityEvent :=
  (List.range 8).filterMap (fun i =>
    if data &&& (0x80 >>> i) ≠ 0 then
      some (if st.dvs.invertXY then
              ⟨st.timestamps.current, st.dvs.lastY, st.dvs.lastX + i, polarity⟩
            else
              ⟨st.timestamps.current, st.dvs.lastX + i, st.dvs.lastY, polarity⟩)
    else none)

/-- The IMU END case (src/dv_explorer.c lines 1143-1180): copy the privately
assembled sample into the packet only when the position counter matched the
expected total; otherwise discard it and log the discrepancy. -/
def handleImuEnd (env : Env) (st : State) : State × Bool × Bool × List Log :=
  if st.imu.ignoreEvents then (st, false, false, [])
  else if st.imu.count = IMU_TOTAL_COUNT then
    let ev := { st.imu.currentEvent with
      timestamp := st.timestamps.current, valid := true }
    let imu1 := { st.imu with currentEvent := ev }
    let p := st.imu6Packet.getD ⟨0, []⟩
    let r := ensureSpaceForEvents p st.imu6Position 1 env.growImu6Ok
    if r.2.1 then
      let st2 := { st with
        imu := imu1,
        imu6Packet := some { r.1 with events := r.1.events ++ [ev] },
        imu6Position := st.imu6Position + 1 }
      (st2, false, false, Log.imuEndReceived :: r.2.2)
    else
      ({ st with imu := imu1, imu6Packet := some r.1 },
        false, false, Log.imuEndReceived :: r.2.2)
  else
    (st, false, false, [Log.imuEndReceived, Log.imuEndCountMismatch])

/-- The special-event cases of the token dispatch (src/dv_explorer.c lines
1057-1218): control markers, timestamp reset, IMU START/END, external
input/generator edges. -/
def handleSpecialToken (env : Env) (st : State) (data : Nat) :
    State × Bool × Bool × List Log :=
  if data = 0 then (st, false, false, [Log.specialReservedEvent])
  else if data = 1 then
    -- timestamp reset; the async master/slave SPI query is external I/O
    let ts2 := handleTimestampResetNewLogic st.timestamps
    let cg := containerGenerationCommitTimestampInit
      (containerGenerationCommitTimestampReset st.container) ts2.current
    ({ st with timestamps := ts2, container := cg }, true, false, [])
  else if data = 2 then
    let r := appendSpecial env st SpecialType.externalInputFallingEdge
      Log.externalInputFallingEdgeReceived
    (r.1, false, false, r.2)
  else if data = 3 then
    let r := appendSpecial env st SpecialType.externalInputRisingEdge
      Log.externalInputRisingEdgeReceived
    (r.1, false, false, r.2)
  else if data = 4 then
    let r := appendSpecial env st SpecialType.externalInputPulse
      Log.externalInputPulseReceived
    (r.1, false, false, r.2)
  else if data = 5 then
    -- IMU start: resume assembly with a zeroed private event
    ({ st with imu := { st.imu with
        ignoreEvents := false, count := 0, typ := 0,
        currentEvent := Imu6Event.zero } }, false, false, [Log.imu6StartReceived])
  else if data = 7 then handleImuEnd env st
  else if data = 16 then
    let r := appendSpecial env st SpecialType.externalGeneratorFallingEdge
      Log.externalGeneratorFallingEdgeReceived
    (r.1, false, false, r.2)
  else if data = 17 then
    let r := appendSpecial env st SpecialType.externalGeneratorRisingEdge
      Log.externalGeneratorRisingEdgeReceived
    (r.1, false, false, r.2)
  else (st, false, false, [Log.specialUnhandled])

/-- The Y column-address case (src/dv_explorer.c lines 1221-1239). -/
def handleYToken (st : State) (data : Nat) : State × Bool × Bool × List Log :=
  let columnAddr := data &&& 0x03FF
  let sofLogs := if data &&& 0x0800 ≠ 0 then [Log.startOfFrameMarker] else []
  if st.dvs.sizeY ≤ columnAddr then
    -- skip invalid Y address without updating lastY
    (st, false, false, sofLogs ++ [Log.yOutOfRange])
  else
    ({ st with dvs := { st.dvs with lastY := columnAddr } }, false, false, sofLogs)

/-- The 8-pixel group case (src/dv_explorer.c lines 1241-1275);
2 is OFF polarity, 3 is ON. -/
def handleGroupToken (env : Env) (st : State) (code data : Nat) :
    State × Bool × Bool × List Log :=
  let p := st.polarityPacket.getD ⟨0, []⟩
  let r := ensureSpaceForEvents p st.polarityPosition 8 env.growPolarityOk
  if r.2.1 then
    let evs := groupEvents st data (decide (code &&& 0x01 ≠ 0))
    ({ st with
        polarityPacket := some { r.1 with events := r.1.events ++ evs },
        polarityPosition := st.polarityPosition + evs.length },
      false, false, r.2.2)
  else
    ({ st with polarityPacket := some r.1 }, false, false, r.2.2)

/-- The SGROUP row-address case (src/dv_explorer.c lines 1277-1290);
MGROUP is unsupported. -/
def handleSGroupToken (st : State) (data : Nat) : State × Bool × Bool × List Log :=
  if data &&& 0x0FC0 = 0 then
    ({ st with dvs := { st.dvs with lastX := (data &&& 0x003F) * 8 } },
      false, false, [])
  else (st, false, false, [Log.mgroupUnsupported])

/-- The misc-8-bit case (src/dv_explorer.c lines 1292-1449): IMU data
fragments and the IMU scale configuration. -/
def handleMisc8Token (st : State) (data : Nat) : State × Bool × Bool × List Log :=
  let misc8Code := (data &&& 0x0F00) >>> 8
  let misc8Data := data &&& 0x00FF
  if misc8Code = 0 then
    if st.imu.ignoreEvents then (st, false, false, [])
    else
      let r := imuDataEvent st.imu misc8Data
      ({ st with imu := r.1 }, false, false, Log.imuDataReceived :: r.2)
  else if misc8Code = 3 then
    if st.imu.ignoreEvents then (st, false, false, [])
    else
      let r := imuScaleConfig st.imu data
      ({ st with imu := r.1 }, false, false, r.2)
  else (st, false, false, [Log.misc8Unhandled])

/-- The timestamp-wrap case (src/dv_explorer.c lines 1451-1471). -/
def handleWrapToken (env : Env) (st : State) (data : Nat) :
    State × Bool × Bool × List Log :=
  let r := handleTimestampWrapNewLogic st.timestamps (data : Int) TS_WRAP_ADD
  if r.2.1 then
    let p := st.specialPacket.getD ⟨0, []⟩
    let g := ensureSpaceForEvents p st.specialPosition 1 env.growSpecialOk
    if g.2.1 then
      let st2 := { st with
        timestamps := r.1,
        specialPacket :=
          some { g.1 with events := g.1.events ++ [⟨int32Max, SpecialType.timestampWrap⟩] },
        specialPosition := st.specialPosition + 1 }
      (st2, false, true, r.2.2 ++ g.2.2)
    else
      ({ st with timestamps := r.1, specialPacket := some g.1 },
        false, true, r.2.2 ++ g.2.2)
  else
    let st2 := { st with
      timestamps := r.1,
      container := containerGenerationCommitTimestampInit st.container r.1.current }
    (st2, false, false, r.2.2)

/-- The main token dispatch of dvExplorerEventTranslator (src/dv_explorer.c
lines 1043-1477), returning (state, tsReset, tsBigWrap, logs). -/
def handleEvent (env : Env) (st : State) (event : Nat) : State × Bool × Bool × List Log :=
  if event &&& 0x8000 ≠ 0 then
    -- timestamp token
    let r := handleTimestampUpdateNewLogic st.timestamps event
    let cg := containerGenerationCommitTimestampInit st.container r.1.current
    ({ st with timestamps := r.1, container := cg }, false, false, r.2)
  else
    let code := (event &&& 0x7000) >>> 12
    let data := event &&& 0x0FFF
    if code = 0 then handleSpecialToken env st data
    else if code = 1 then handleYToken st data
    else if code = 2 ∨ code = 3 then handleGroupToken env st code data
    else if code = 4 then handleSGroupToken st data
    else if code = 5 then handleMisc8Token st data
    else if code = 7 then handleWrapToken env st data
    else (st, false, false, [Log.eventUnhandled])

/-- Modelled from the spec (§4.3-§4.4): containerGenerationExecute lives in a
private header not among the sources.  It re-arms the commit deadline by
repeated interval addition whenever the time trigger had elapsed, discards a
completely empty container, hands a non-empty one to the exchange ring
(dropping it with a log when the ring is full), and, after a TS reset,
force-delivers a container holding the single Special(TIMESTAMP_RESET)
event (stamped INT32_MAX, mirroring the in-source reset event of src/edvs.c);
failing to allocate that container aborts the buffer. -/
def containerGenerationExecute (env : Env) (cg : ContainerGen)
    (emptyCommit tsReset : Bool) (wrapOverflow current : Int) (c : Container) :
    ContainerGen × List Container × List Log × Bool :=
  let fullTS := generateFullTimestamp wrapOverflow current
  let rearmed := rearmCommitTimestamp fullTS cg.maxPacketInterval cg.commitTimestamp
  let cg1 := if decide (cg.commitTimestamp < fullTS) then
      { cg with commitTimestamp := rearmed }
    else cg
  let cg2 := { cg1 with allocated := false }
  let deliverNormal :=
    if emptyCommit then (([] : List Container), ([] : List Log))
    else if env.putOk then ([c], [])
    else ([], [Log.droppedContainerRingFull])
  if tsReset then
    if env.allocTsResetOk then
      (cg2, deliverNormal.1 ++ [⟨none, some [⟨int32Max, SpecialType.timestampReset⟩], none⟩],
        deliverNormal.2, false)
    else (cg2, deliverNormal.1, deliverNormal.2 ++ [Log.allocTsResetFailed], true)
  else (cg2, deliverNormal.1, deliverNormal.2, false)

/-- The per-type non-empty packet slots moved into the container on commit. -/
def commitParts (st : State) : Container :=
  ⟨if 0 < st.polarityPosition then some (st.polarityPacket.getD ⟨0, []⟩).events else none,
   if 0 < st.specialPosition then some (st.specialPacket.getD ⟨0, []⟩).events else none,
   if 0 < st.imu6Position then some (st.imu6Packet.getD ⟨0, []⟩).events else none⟩

/-- Clearing of the in-progress slots whose packets were moved into the
container (the next event of that type lazily allocates a fresh packet). -/
def clearCommitted (st : State) : State :=
  { st with
    polarityPacket := if 0 < st.polarityPosition then none else st.polarityPacket,
    polarityPosition := 0,
    specialPacket := if 0 < st.specialPosition then none else st.specialPacket,
    specialPosition := 0,
    imu6Packet := if 0 < st.imu6Position then none else st.imu6Packet,
    imu6Position := 0 }

/-- The commit stage of one token (src/dv_explorer.c lines 1479-1539):
evaluate the size, time and forced triggers; move the non-empty packets into
the container; after a forced (reset/big-wrap) commit make the IMU assembly
ignore further fragments until a new START; hand the container to
containerGenerationExecute. -/
def commitLogic (env : Env) (st : State) (tsReset tsBigWrap : Bool) : StepResult :=
  let commitSize := containerGenerationGetMaxPacketSize st.container
  let containerSizeCommit := decide (0 < commitSize)
    && (decide (commitSize ≤ (st.polarityPosition : Int))
        || decide (commitSize ≤ (st.specialPosition : Int))
        || decide (commitSize ≤ (st.imu6Position : Int)))
  let containerTimeCommit := containerGenerationIsCommitTimestampElapsed st.container
    st.timestamps.wrapOverflow st.timestamps.current
  if tsReset || tsBigWrap || containerSizeCommit || containerTimeCommit then
    let c := commitParts st
    let st1 := clearCommitted st
    let st2 := if tsReset || tsBigWrap then
        { st1 with imu := { st1.imu with ignoreEvents := true } }
      else st1
    let emptyCommit := c.polarity.isNone && c.special.isNone && c.imu6.isNone
    let r := containerGenerationExecute env st2.container emptyCommit tsReset
      st.timestamps.wrapOverflow st.timestamps.current c
    ⟨{ st2 with container := r.1 }, r.2.1, r.2.2.1, r.2.2.2,
      tsReset, tsBigWrap, containerSizeCommit, containerTimeCommit⟩
  else
    ⟨st, [], [], false, tsReset, tsBigWrap, containerSizeCommit, containerTimeCommit⟩

/-- Lazy allocation of one in-progress packet at the top of the token loop.
`none` in the first component signals an allocation failure. -/
def allocIfNone {ev : Type} (pkt : Option (CaerPacket ev)) (defaultSize : Nat)
    (allocOk : Bool) (allocLog : Log) : Option (CaerPacket ev) × List Log :=
  match pkt with
  | none => if allocOk then (some ⟨defaultSize, []⟩, []) else (none, [allocLog])
  | some p => (some p, [])

/-- The allocation preamble of one loop iteration in dvExplorerEventTranslator:
container, special packet, polarity packet, IMU6 packet, in source order. -/
def allocatePackets (env : Env) (st : State) : State × List Log × Bool :=
  if !st.container.allocated && !env.allocContainerOk then
    (st, [Log.allocContainerFailed], false)
  else
    let st0 := { st with container := { st.container with allocated := true } }
    match allocIfNone st0.specialPacket st0.config.specialDefaultSize
        env.allocSpecialOk Log.allocSpecialFailed with
    | (none, logs) => (st0, logs, false)
    | (some sp, _) =>
      let st1 := { st0 with specialPacket := some sp }
      match allocIfNone st1.polarityPacket st1.config.polarityDefaultSize
          env.allocPolarityOk Log.allocPolarityFailed with
      | (none, logs) => (st1, logs, false)
      | (some pp, _) =>
        let st2 := { st1 with polarityPacket := some pp }
        match allocIfNone st2.imu6Packet st2.config.imuDefaultSize
            env.allocImu6Ok Log.allocImu6Failed with
        | (none, logs) => (st2, logs, false)
        | (some ip, _) => ({ st2 with imu6Packet := some ip }, [], true)

/-- Translate one complete 16-bit token. -/
def processEvent (env : Env) (st : State) (event : Nat) : StepResult :=
  match allocatePackets env st with
  | (st1, logs, false) => ⟨st1, [], logs, true, false, false, false, false⟩
  | (st1, _, true) =>
    let r := handleEvent env st1 event
    let out := commitLogic env r.1 r.2.1 r.2.2.1
    { out with logs := r.2.2.2 ++ out.logs }

/-- Accumulated result of translating a whole raw chunk. -/
structure Output where
  state : State
  delivered : List Container
  logs : List Log
deriving DecidableEq, Repr

/-- The word loop: consume the buffer two bytes (one little-endian word) at a
time, abandoning the rest of the buffer when a token aborted on an allocation
failure. -/
def translateLoop : List Env → State → List Nat → Output
  | _, st, [] => ⟨st, [], []⟩
  | _, st, [_] => ⟨st, [], []⟩
  | envs, st, b0 :: b1 :: rest =>
    let r := processEvent (envs.headD Env.ok) st (b0 ||| (b1 <<< 8))
    if r.aborted then ⟨r.state, r.delivered, r.logs⟩
    else
      let o := translateLoop envs.tail r.state rest
      ⟨o.state, r.delivered ++ o.delivered, r.logs ++ o.logs⟩

/-- dvExplorerEventTranslator: return immediately when the stream is no longer
running; truncate (with an alert log) a trailing odd byte; then run the word
loop. -/
def dvExplorerEventTranslator (envs : List Env) (st : State) (buffer : List Nat) :
    Output :=
  if !st.running then ⟨st, [], []⟩
  else if buffer.length % 2 ≠ 0 then
    let o := translateLoop envs st (buffer.take (buffer.length - 1))
    ⟨o.state, o.delivered, Log.oddBufferLength :: o.logs⟩
  else translateLoop envs st buffer

/-- The in-progress packet positions are consistent with the packets' written
events. -/
def State.wellFormed (st : State) : Prop :=
  (st.specialPacket = none → st.specialPosition = 0) ∧
  (∀ p, st.specialPacket = some p → st.specialPosition = p.events.length) ∧
  (st.polarityPacket = none → st.polarityPosition = 0) ∧
  (∀ p, st.polarityPacket = some p → st.polarityPosition = p.events.length) ∧
  (st.imu6Packet = none → st.imu6Position = 0) ∧
  (∀ p, st.imu6Packet = some p → st.imu6Position = p.events.length)

end Libcaer.Dvx

namespace Libcaer.Edvs

/-! ## Helper lemmas about the eDVS step -/

/-- Pre-state view of the written polarity events. -/
def State.polarityEvents (st : State) : List PolarityEvent :=
  (st.currentPolarityPacket.getD ⟨0, []⟩).events

/-- Pre-state view of the written special events. -/
def State.specialEvents (st : State) : List SpecialEvent :=
  (st.currentSpecialPacket.getD ⟨0, []⟩).events

theorem allocatePackets_ok (st : State) :
    ∃ st1, allocatePackets Env.ok st = (st1, [], true) ∧
      st1.timestamps = st.timestamps ∧
      st1.currentPolarityPacketPosition = st.currentPolarityPacketPosition ∧
      st1.currentSpecialPacketPosition = st.currentSpecialPacketPosition ∧
      st1.currentPacketContainerCommitTimestamp = st.currentPacketContainerCommitTimestamp ∧
      st1.maxPacketContainerInterval = st.maxPacketContainerInterval ∧
      st1.maxPacketContainerPacketSize = st.maxPacketContainerPacketSize ∧
      st1.dvsTSReset = st.dvsTSReset ∧
      st1.running = st.running ∧
      st1.config = st.config ∧
      st1.containerAllocated = true ∧
      st1.polarityEvents = st.polarityEvents ∧
      st1.specialEvents = st.specialEvents ∧
      st1.currentPolarityPacket.isSome = true ∧
      st1.currentSpecialPacket.isSome = true := by
  unfold allocatePackets allocOrGrow Env.ok
  rcases hp : st.currentPolarityPacket with _ | p <;>
    rcases hs : st.currentSpecialPacket with _ | s <;>
      simp only [hp, hs, Bool.not_true, Bool.and_false, Bool.false_and, Bool.and_true,
        if_true, if_false, ite_true, ite_false, Bool.false_eq_true] <;>
      first
        | exact ⟨_, rfl, by simp [State.polarityEvents, State.specialEvents, hp, hs]⟩
        | (split_ifs <;>
            exact ⟨_, rfl, by simp [State.polarityEvents, State.specialEvents, hp, hs]⟩)


set_option maxHeartbeats 1000000 in
theorem commitLogic_timestamps (env : Env) (s : State) (a b : Bool) :
    (commitLogic env s a b).state.timestamps = s.timestamps := by
  simp only [commitLogic]
  split_ifs <;> rfl

set_option maxHeartbeats 1000000 in
theorem commitLogic_interval (env : Env) (s : State) (a b : Bool) :
    (commitLogic env s a b).state.maxPacketContainerInterval
      = s.maxPacketContainerInterval := by
  simp only [commitLogic]
  split_ifs <;> rfl

/-- The timestamp state produced by the common pixel tail of a non-reset,
non-big-wrap token. -/
theorem tokenPixel_timestamps (st : State) (wa ls sTS : Int) (yB xB : Nat) :
    (tokenTimestampAndEvent.tokenPixel st wa ls sTS yB xB).1.timestamps =
      ⟨st.timestamps.wrapOverflow, wa, ls, st.timestamps.current, wa + sTS⟩ := by
  simp only [tokenTimestampAndEvent.tokenPixel, initContainerCommitTimestamp]
  split_ifs <;> rfl

theorem tokenPixel_interval (st : State) (wa ls sTS : Int) (yB xB : Nat) :
    (tokenTimestampAndEvent.tokenPixel st wa ls sTS yB xB).1.maxPacketContainerInterval
      = st.maxPacketContainerInterval := by
  simp only [tokenTimestampAndEvent.tokenPixel, initContainerCommitTimestamp]
  split_ifs <;> rfl

theorem tokenPixel_flags (st : State) (wa ls sTS : Int) (yB xB : Nat) :
    (tokenTimestampAndEvent.tokenPixel st wa ls sTS yB xB).2.1 = false ∧
    (tokenTimestampAndEvent.tokenPixel st wa ls sTS yB xB).2.2.1 = false := by
  simp only [tokenTimestampAndEvent.tokenPixel, initContainerCommitTimestamp]
  split_ifs <;> exact ⟨rfl, rfl⟩

set_option maxHeartbeats 1000000 in
theorem commitLogic_bigwrap (env : Env) (s : State) (hPut : env.putOk = true)
    (hSp : 0 < s.currentSpecialPacketPosition) :
    (commitLogic env s false true).delivered =
      [⟨(if 0 < s.currentPolarityPacketPosition then some s.polarityEvents else none),
        some s.specialEvents⟩] ∧
    (commitLogic env s false true).tsBigWrap = true := by
  simp only [commitLogic, State.polarityEvents, State.specialEvents]
  split_ifs <;> simp_all [State.polarityEvents, State.specialEvents]

set_option maxHeartbeats 1000000 in
theorem commitLogic_reset (env : Env) (s : State) (hEnv : env = Env.ok) (b : Bool) :
    (commitLogic env s true b).delivered =
      (if 0 < s.currentPolarityPacketPosition ∨ 0 < s.currentSpecialPacketPosition then
        [⟨(if 0 < s.currentPolarityPacketPosition then some s.polarityEvents else none),
          (if 0 < s.currentSpecialPacketPosition then some s.specialEvents else none)⟩]
      else []) ++ [⟨none, some [⟨int32Max, SpecialType.timestampReset⟩]⟩] ∧
    (commitLogic env s true b).aborted = false := by
  subst hEnv
  simp only [commitLogic, State.polarityEvents, State.specialEvents, Env.ok]
  split_ifs <;> simp_all [State.polarityEvents, State.specialEvents]

/-- The big-wrap branch of the token trunk: epoch increment, offsets zeroed,
sentinel appended to the special packet. -/
theorem tokenTS_bigwrap (st : State) (yB xB t1 t2 : Nat)
    (hNoReset : st.dvsTSReset = false)
    (hW : (((t1 <<< 8) ||| t2 : Nat) : Int) < st.timestamps.lastShort)
    (hBig : st.timestamps.wrapAdd = int32Max - (TS_WRAP_ADD - 1)) :
    tokenTimestampAndEvent st yB xB t1 t2 =
      ({ st with
          timestamps := ⟨st.timestamps.wrapOverflow + 1, 0, 0, 0, 0⟩,
          currentSpecialPacket := some ⟨(st.currentSpecialPacket.getD ⟨0, []⟩).capacity,
            st.specialEvents ++ [⟨int32Max, SpecialType.timestampWrap⟩]⟩,
          currentSpecialPacketPosition := st.currentSpecialPacketPosition + 1 },
        false, true, []) := by
  simp only [tokenTimestampAndEvent, hNoReset, hW, hBig, Bool.false_eq_true, if_false,
    ite_false, if_true, ite_true, if_pos, State.specialEvents]

/-- The reset branch of the token trunk: the whole timestamp state is zeroed,
the commit deadline is re-initialised, and the reset event is deferred to the
commit stage. -/
theorem tokenTS_reset (st : State) (yB xB t1 t2 : Nat)
    (hReset : st.dvsTSReset = true) :
    tokenTimestampAndEvent st yB xB t1 t2 =
      ({ st with
          timestamps := ⟨0, 0, 0, 0, 0⟩,
          dvsTSReset := false,
          currentPacketContainerCommitTimestamp := st.maxPacketContainerInterval - 1 },
        true, false, []) := by
  simp only [tokenTimestampAndEvent, hReset, initContainerCommitTimestamp, if_true, ite_true]
  norm_num

end Libcaer.Edvs

namespace Libcaer.Dvx

/-! ## Helper lemmas about the DV Explorer step -/

/-- Pre-state view of the written special events. -/
def State.specialEvents (st : State) : List SpecialEvent :=
  (st.specialPacket.getD ⟨0, []⟩).events

/-- Pre-state view of the written polarity events. -/
def State.polarityEvents (st : State) : List PolarityEvent :=
  (st.polarityPacket.getD ⟨0, []⟩).events

/-- Pre-state view of the written IMU events. -/
def State.imu6Events (st : State) : List Imu6Event :=
  (st.imu6Packet.getD ⟨0, []⟩).events

/-- The completed private IMU sample as it is copied into the packet on a
successful END: stamped with the current timestamp and validated. -/
def imuCompleted (st : State) : Imu6Event :=
  { st.imu.currentEvent with timestamp := st.timestamps.current, valid := true }

theorem allocatePackets_ok_dvx (st : State) :
    ∃ st1, allocatePackets Env.ok st = (st1, [], true) ∧
      st1.timestamps = st.timestamps ∧
      st1.container = { st.container with allocated := true } ∧
      st1.specialPosition = st.specialPosition ∧
      st1.polarityPosition = st.polarityPosition ∧
      st1.imu6Position = st.imu6Position ∧
      st1.dvs = st.dvs ∧
      st1.imu = st.imu ∧
      st1.running = st.running ∧
      st1.config = st.config ∧
      st1.specialEvents = st.specialEvents ∧
      st1.polarityEvents = st.polarityEvents ∧
      st1.imu6Events = st.imu6Events ∧
      st1.specialPacket.isSome = true ∧
      st1.polarityPacket.isSome = true ∧
      st1.imu6Packet.isSome = true := by
  unfold allocatePackets allocIfNone Env.ok
  rcases hs : st.specialPacket with _ | s <;>
    rcases hp : st.polarityPacket with _ | p <;>
      rcases hi : st.imu6Packet with _ | i <;>
        simp only [hs, hp, hi, Bool.not_true, Bool.and_false, Bool.false_and, Bool.and_true,
          if_true, if_false, ite_true, ite_false, Bool.false_eq_true] <;>
        exact ⟨_, rfl, by
          simp [State.specialEvents, State.polarityEvents, State.imu6Events, hs, hp, hi]⟩

/-- Concatenation of the IMU packets of a list of delivered containers. -/
def deliveredImu6 : List Container → List Imu6Event
  | [] => []
  | c :: cs => c.imu6.getD [] ++ deliveredImu6 cs

/-- A token is the explicit timestamp-reset marker. -/
def isTsResetToken (ev : Nat) : Prop :=
  ev &&& 0x8000 = 0 ∧ (ev &&& 0x7000) >>> 12 = 0 ∧ ev &&& 0x0FFF = 1

/-- A token is the IMU START marker. -/
def isImuStart (ev : Nat) : Prop :=
  ev &&& 0x8000 = 0 ∧ (ev &&& 0x7000) >>> 12 = 0 ∧ ev &&& 0x0FFF = 5

/-- A token is the IMU END marker. -/
def isImuEnd (ev : Nat) : Prop :=
  ev &&& 0x8000 = 0 ∧ (ev &&& 0x7000) >>> 12 = 0 ∧ ev &&& 0x0FFF = 7

/-- A token is an IMU sample fragment or scale-configuration token. -/
def isImuFragment (ev : Nat) : Prop :=
  ev &&& 0x8000 = 0 ∧ (ev &&& 0x7000) >>> 12 = 5 ∧
    (((ev &&& 0x0FFF) &&& 0x0F00) >>> 8 = 0 ∨ ((ev &&& 0x0FFF) &&& 0x0F00) >>> 8 = 3)


/-- With an all-successful environment, one commit delivers the assembled
container (when non-empty) followed by the forced reset container (after a
TS reset). -/
theorem execute_delivered_ok (cg : ContainerGen) (tr e : Bool) (w cur : Int)
    (c : Container) :
    (containerGenerationExecute Env.ok cg e tr w cur c).2.1 =
      (if e then [] else [c])
        ++ (if tr then [⟨none, some [⟨int32Max, SpecialType.timestampReset⟩], none⟩]
            else []) := by
  unfold containerGenerationExecute Env.ok
  split_ifs <;> simp_all

/-- The IMU events carried by the containers one commit delivers are exactly
the committed IMU slot (the ring-buffer put succeeding). -/
theorem execute_imu6 (env : Env) (cg : ContainerGen) (tr : Bool) (w cur : Int)
    (c : Container) (hPut : env.putOk = true) :
    deliveredImu6 (containerGenerationExecute env cg
        (c.polarity.isNone && c.special.isNone && c.imu6.isNone) tr w cur c).2.1
      = c.imu6.getD [] := by
  unfold containerGenerationExecute
  rcases c with ⟨cp, cs, ci⟩
  split_ifs <;>
    simp_all [deliveredImu6, Option.isNone_iff_eq_none]

theorem clearCommitted_imu6Events (st : State) :
    (clearCommitted st).imu6Events = if 0 < st.imu6Position then [] else st.imu6Events := by
  unfold clearCommitted State.imu6Events
  split_ifs <;> simp_all

theorem commitLogic_state_timestamps (env : Env) (s : State) (a b : Bool) :
    (commitLogic env s a b).state.timestamps = s.timestamps := by
  simp only [commitLogic]
  split_ifs <;> rfl

theorem commitLogic_flags (env : Env) (s : State) (a b : Bool) :
    (commitLogic env s a b).tsReset = a ∧ (commitLogic env s a b).tsBigWrap = b := by
  simp only [commitLogic]
  split_ifs <;> exact ⟨rfl, rfl⟩

theorem commitLogic_forced_ignore (env : Env) (s : State) (a b : Bool)
    (hab : a = true ∨ b = true) :
    (commitLogic env s a b).state.imu.ignoreEvents = true := by
  simp only [commitLogic]
  have h : (a || b) = true := by rcases hab with h | h <;> simp [h]
  split_ifs <;> simp_all [clearCommitted]

theorem commitLogic_imu_count (env : Env) (s : State) (a b : Bool) :
    (commitLogic env s a b).state.imu.count = s.imu.count := by
  simp only [commitLogic]
  split_ifs <;> simp_all [clearCommitted]

theorem commitLogic_imu_currentEvent (env : Env) (s : State) (a b : Bool) :
    (commitLogic env s a b).state.imu.currentEvent = s.imu.currentEvent := by
  simp only [commitLogic]
  split_ifs <;> simp_all [clearCommitted]

theorem commitLogic_imu_unforced (env : Env) (s : State) (a b : Bool)
    (hA : a = false) (hB : b = false) :
    (commitLogic env s a b).state.imu = s.imu := by
  subst hA
  subst hB
  simp only [commitLogic]
  split_ifs <;> simp_all [clearCommitted]

theorem commitLogic_imu_ignore_mono (env : Env) (s : State) (a b : Bool)
    (hIgn : s.imu.ignoreEvents = true) :
    (commitLogic env s a b).state.imu.ignoreEvents = true := by
  simp only [commitLogic]
  split_ifs <;> simp_all [clearCommitted]

theorem imu6Events_set_container (s : State) (cg : ContainerGen) :
    State.imu6Events { s with container := cg } = s.imu6Events := rfl

theorem imu6Events_set_imu (s : State) (i : ImuState) :
    State.imu6Events { s with imu := i } = s.imu6Events := rfl

theorem commitLogic_imu6_conservation (env : Env) (s : State) (a b : Bool)
    (hPut : env.putOk = true) :
    deliveredImu6 (commitLogic env s a b).delivered
      ++ (commitLogic env s a b).state.imu6Events = s.imu6Events := by
  simp only [commitLogic]
  split_ifs with h1 h2
  · dsimp only
    rw [execute_imu6 env (clearCommitted s).container a
      s.timestamps.wrapOverflow s.timestamps.current (commitParts s) hPut]
    change (commitParts s).imu6.getD [] ++ State.imu6Events (clearCommitted s) = s.imu6Events
    rw [clearCommitted_imu6Events]
    rcases Nat.eq_zero_or_pos s.imu6Position with hz | hz <;>
      simp_all [commitParts, State.imu6Events]
  · dsimp only
    rw [execute_imu6 env (clearCommitted s).container a
      s.timestamps.wrapOverflow s.timestamps.current (commitParts s) hPut]
    rw [imu6Events_set_container, clearCommitted_imu6Events]
    rcases Nat.eq_zero_or_pos s.imu6Position with hz | hz <;>
      simp_all [commitParts, State.imu6Events]
  · simp [deliveredImu6]

theorem appendSpecial_imu6Packet (env : Env) (st : State) (typ : SpecialType) (dbg : Log) :
    (appendSpecial env st typ dbg).1.imu6Packet = st.imu6Packet := by
  simp only [appendSpecial, ensureSpaceForEvents]
  split_ifs <;> rfl

theorem appendSpecial_imu6Position (env : Env) (st : State) (typ : SpecialType) (dbg : Log) :
    (appendSpecial env st typ dbg).1.imu6Position = st.imu6Position := by
  simp only [appendSpecial, ensureSpaceForEvents]
  split_ifs <;> rfl

theorem appendSpecial_imu (env : Env) (st : State) (typ : SpecialType) (dbg : Log) :
    (appendSpecial env st typ dbg).1.imu = st.imu := by
  simp only [appendSpecial, ensureSpaceForEvents]
  split_ifs <;> rfl

theorem appendSpecial_timestamps (env : Env) (st : State) (typ : SpecialType) (dbg : Log) :
    (appendSpecial env st typ dbg).1.timestamps = st.timestamps := by
  simp only [appendSpecial, ensureSpaceForEvents]
  split_ifs <;> rfl

theorem appendSpecial_dvs (env : Env) (st : State) (typ : SpecialType) (dbg : Log) :
    (appendSpecial env st typ dbg).1.dvs = st.dvs := by
  simp only [appendSpecial, ensureSpaceForEvents]
  split_ifs <;> rfl

theorem appendSpecial_polarity (env : Env) (st : State) (typ : SpecialType) (dbg : Log) :
    (appendSpecial env st typ dbg).1.polarityPacket = st.polarityPacket ∧
    (appendSpecial env st typ dbg).1.polarityPosition = st.polarityPosition := by
  simp only [appendSpecial, ensureSpaceForEvents]
  split_ifs <;> exact ⟨rfl, rfl⟩



theorem handleImuEnd_imu6_unchanged (env : Env) (st : State)
    (hNot : ¬(st.imu.ignoreEvents = false ∧ st.imu.count = IMU_TOTAL_COUNT)) :
    (handleImuEnd env st).1.imu6Events = st.imu6Events ∧
    (handleImuEnd env st).1.imu6Position = st.imu6Position := by
  simp only [handleImuEnd, ensureSpaceForEvents]
  split_ifs <;> simp_all [State.imu6Events]

theorem handleImuEnd_imu6_append (env : Env) (st : State)
    (hG : env.growImu6Ok = true) (hIgn : st.imu.ignoreEvents = false)
    (hCnt : st.imu.count = IMU_TOTAL_COUNT) :
    (handleImuEnd env st).1.imu6Events = st.imu6Events ++ [imuCompleted st] ∧
    (handleImuEnd env st).1.imu6Position = st.imu6Position + 1 := by
  simp only [handleImuEnd, ensureSpaceForEvents, hIgn, hCnt, hG]
  split_ifs <;> simp_all [State.imu6Events, imuCompleted]

set_option maxHeartbeats 1000000 in
/-- Among the special-token cases, only a completing IMU END touches the IMU
packet. -/
theorem handleSpecialToken_imu6_unchanged (env : Env) (st : State) (data : Nat)
    (hNot : ¬(data = 7 ∧ st.imu.ignoreEvents = false ∧ st.imu.count = IMU_TOTAL_COUNT)) :
    (handleSpecialToken env st data).1.imu6Events = st.imu6Events ∧
    (handleSpecialToken env st data).1.imu6Position = st.imu6Position := by
  simp only [handleSpecialToken]
  split_ifs with h0 h1 h2 h3 h4 h5 h7
  · exact ⟨rfl, rfl⟩
  · exact ⟨rfl, rfl⟩
  · exact ⟨by simp [State.imu6Events, appendSpecial_imu6Packet], appendSpecial_imu6Position ..⟩
  · exact ⟨by simp [State.imu6Events, appendSpecial_imu6Packet], appendSpecial_imu6Position ..⟩
  · exact ⟨by simp [State.imu6Events, appendSpecial_imu6Packet], appendSpecial_imu6Position ..⟩
  · exact ⟨rfl, rfl⟩
  · exact handleImuEnd_imu6_unchanged env st (by rintro ⟨hi, hc⟩; exact hNot ⟨h7, hi, hc⟩)
  · exact ⟨by simp [State.imu6Events, appendSpecial_imu6Packet], appendSpecial_imu6Position ..⟩
  · exact ⟨by simp [State.imu6Events, appendSpecial_imu6Packet], appendSpecial_imu6Position ..⟩
  · exact ⟨rfl, rfl⟩

theorem handleYToken_other (st : State) (data : Nat) :
    (handleYToken st data).1.imu6Packet = st.imu6Packet ∧
    (handleYToken st data).1.imu6Position = st.imu6Position ∧
    (handleYToken st data).1.imu = st.imu := by
  simp only [handleYToken]
  split_ifs <;> exact ⟨rfl, rfl, rfl⟩

theorem handleGroupToken_other (env : Env) (st : State) (code data : Nat) :
    (handleGroupToken env st code data).1.imu6Packet = st.imu6Packet ∧
    (handleGroupToken env st code data).1.imu6Position = st.imu6Position ∧
    (handleGroupToken env st code data).1.imu = st.imu := by
  simp only [handleGroupToken, ensureSpaceForEvents]
  split_ifs <;> exact ⟨rfl, rfl, rfl⟩

theorem handleSGroupToken_other (st : State) (data : Nat) :
    (handleSGroupToken st data).1.imu6Packet = st.imu6Packet ∧
    (handleSGroupToken st data).1.imu6Position = st.imu6Position ∧
    (handleSGroupToken st data).1.imu = st.imu := by
  simp only [handleSGroupToken]
  split_ifs <;> exact ⟨rfl, rfl, rfl⟩

theorem handleMisc8Token_other (st : State) (data : Nat) :
    (handleMisc8Token st data).1.imu6Packet = st.imu6Packet ∧
    (handleMisc8Token st data).1.imu6Position = st.imu6Position := by
  simp only [handleMisc8Token]
  split_ifs <;> exact ⟨rfl, rfl⟩

theorem handleWrapToken_other (env : Env) (st : State) (data : Nat) :
    (handleWrapToken env st data).1.imu6Packet = st.imu6Packet ∧
    (handleWrapToken env st data).1.imu6Position = st.imu6Position ∧
    (handleWrapToken env st data).1.imu = st.imu := by
  simp only [handleWrapToken, ensureSpaceForEvents]
  split_ifs <;> exact ⟨rfl, rfl, rfl⟩

set_option maxHeartbeats 1000000 in
/-- No branch of the token dispatch other than a completing IMU END touches
the IMU packet. -/
theorem handleEvent_imu6_unchanged (env : Env) (st : State) (ev : Nat)
    (hNot : ¬(isImuEnd ev ∧ st.imu.ignoreEvents = false ∧ st.imu.count = IMU_TOTAL_COUNT)) :
    (handleEvent env st ev).1.imu6Events = st.imu6Events ∧
    (handleEvent env st ev).1.imu6Position = st.imu6Position := by
  simp only [handleEvent]
  split_ifs with h1 h2 h3 h4 h5 h6 h7
  · exact ⟨rfl, rfl⟩
  · refine handleSpecialToken_imu6_unchanged env st _ ?_
    rintro ⟨hd, hi, hc⟩
    exact hNot ⟨⟨by omega, h2, hd⟩, hi, hc⟩
  · have h := handleYToken_other st (ev &&& 0x0FFF)
    exact ⟨by simp [State.imu6Events, h.1], h.2.1⟩
  · have h := handleGroupToken_other env st ((ev &&& 0x7000) >>> 12) (ev &&& 0x0FFF)
    exact ⟨by simp [State.imu6Events, h.1], h.2.1⟩
  · have h := handleSGroupToken_other st (ev &&& 0x0FFF)
    exact ⟨by simp [State.imu6Events, h.1], h.2.1⟩
  · have h := handleMisc8Token_other st (ev &&& 0x0FFF)
    exact ⟨by simp [State.imu6Events, h.1], h.2⟩
  · have h := handleWrapToken_other env st (ev &&& 0x0FFF)
    exact ⟨by simp [State.imu6Events, h.1], h.2.1⟩
  · exact ⟨rfl, rfl⟩

/-- A completing IMU END appends exactly the completed private sample. -/
theorem handleEvent_imu6_append (env : Env) (st : State) (ev : Nat)
    (hG : env.growImu6Ok = true) (hEnd : isImuEnd ev)
    (hIgn : st.imu.ignoreEvents = false) (hCnt : st.imu.count = IMU_TOTAL_COUNT) :
    (handleEvent env st ev).1.imu6Events = st.imu6Events ++ [imuCompleted st] ∧
    (handleEvent env st ev).1.imu6Position = st.imu6Position + 1 := by
  obtain ⟨he1, he2, he3⟩ := hEnd
  simp only [handleEvent, he1, he2, he3, handleSpecialToken]
  norm_num
  exact handleImuEnd_imu6_append env st hG hIgn hCnt

/-- While `ignoreEvents` is set, IMU fragments, scale configurations and END
markers leave the IMU assembly state untouched and force nothing. -/
theorem handleEvent_ignored (env : Env) (st : State) (ev : Nat)
    (hIgn : st.imu.ignoreEvents = true)
    (hTok : isImuFragment ev ∨ isImuEnd ev) :
    (handleEvent env st ev).1.imu = st.imu ∧
    (handleEvent env st ev).2.1 = false ∧ (handleEvent env st ev).2.2.1 = false := by
  rcases hTok with ⟨h1, h2, h3⟩ | ⟨h1, h2, h3⟩
  · rcases h3 with h3 | h3 <;>
      simp [handleEvent, h1, h2, handleMisc8Token, h3, hIgn]
  · simp [handleEvent, h1, h2, h3, handleSpecialToken, handleImuEnd, hIgn]

/-- An IMU START marker resumes assembly from a zeroed private event and
forces nothing. -/
theorem handleEvent_start (env : Env) (st : State) (ev : Nat)
    (hS : isImuStart ev) :
    (handleEvent env st ev).1.imu =
      { st.imu with
        ignoreEvents := false,
        count := 0,
        typ := 0,
        currentEvent := Imu6Event.zero } ∧
    (handleEvent env st ev).2.1 = false ∧ (handleEvent env st ev).2.2.1 = false := by
  obtain ⟨h1, h2, h3⟩ := hS
  simp [handleEvent, h1, h2, h3, handleSpecialToken]

/-- An IMU END with a mismatched position counter discards the partial sample,
changes nothing, and logs the discrepancy. -/
theorem handleEvent_end_mismatch (env : Env) (st : State) (ev : Nat)
    (hEnd : isImuEnd ev) (hIgn : st.imu.ignoreEvents = false)
    (hCnt : st.imu.count ≠ IMU_TOTAL_COUNT) :
    handleEvent env st ev = (st, false, false, [Log.imuEndReceived, Log.imuEndCountMismatch]) := by
  obtain ⟨h1, h2, h3⟩ := hEnd
  simp [handleEvent, h1, h2, h3, handleSpecialToken, handleImuEnd, hIgn, hCnt]

end Libcaer.Dvx

namespace Libcaer.Edvs

/-- Every in-progress packet whose position is non-zero holds at least one
written event. -/
def State.packetsNonempty (st : State) : Prop :=
  (0 < st.currentPolarityPacketPosition → st.polarityEvents ≠ []) ∧
  (0 < st.currentSpecialPacketPosition → st.specialEvents ≠ [])

theorem wellFormed_packetsNonempty (st : State) (h : st.wellFormed) :
    st.packetsNonempty := by
  obtain ⟨h1, h2, h3, h4⟩ := h
  constructor
  · intro hp
    rcases ho : st.currentPolarityPacket with _ | p
    · exact absurd (h1 ho) (by omega)
    · have := h2 p ho
      simp [State.polarityEvents, ho]
      intro hnil
      rw [hnil] at this
      simp at this
      omega
  · intro hp
    rcases ho : st.currentSpecialPacket with _ | p
    · exact absurd (h3 ho) (by omega)
    · have := h4 p ho
      simp [State.specialEvents, ho]
      intro hnil
      rw [hnil] at this
      simp at this
      omega

theorem processToken_alloc_fail (env : Env) (st : State) (y x t1 t2 : Nat)
    (h : (allocatePackets env st).2.2 = false) :
    (processToken env st y x t1 t2).delivered = [] := by
  simp only [processToken]
  rcases hA : allocatePackets env st with ⟨s1, logs, flag⟩
  rw [hA] at h
  simp at h
  subst h
  rfl

set_option maxHeartbeats 1000000 in
theorem allocatePackets_success (env : Env) (st : State)
    (h : (allocatePackets env st).2.2 = true) :
    ∃ st1, allocatePackets env st = (st1, [], true) ∧
      st1.timestamps = st.timestamps ∧
      st1.currentPolarityPacketPosition = st.currentPolarityPacketPosition ∧
      st1.currentSpecialPacketPosition = st.currentSpecialPacketPosition ∧
      st1.currentPacketContainerCommitTimestamp = st.currentPacketContainerCommitTimestamp ∧
      st1.maxPacketContainerInterval = st.maxPacketContainerInterval ∧
      st1.maxPacketContainerPacketSize = st.maxPacketContainerPacketSize ∧
      st1.dvsTSReset = st.dvsTSReset ∧
      st1.running = st.running ∧
      st1.config = st.config ∧
      st1.polarityEvents = st.polarityEvents ∧
      st1.specialEvents = st.specialEvents := by
  unfold allocatePackets allocOrGrow at h ⊢
  rcases hp : st.currentPolarityPacket with _ | p <;>
    rcases hs : st.currentSpecialPacket with _ | s <;>
      simp only [hp, hs] at h ⊢ <;>
      split_ifs at h ⊢ <;>
      first
        | exact ⟨_, rfl, by simp [State.polarityEvents, State.specialEvents, hp, hs]⟩
        | simp_all

set_option maxHeartbeats 1000000 in
theorem tokenPixel_packetsNonempty (st : State) (wa ls sTS : Int) (y x : Nat)
    (h : st.packetsNonempty) :
    (tokenTimestampAndEvent.tokenPixel st wa ls sTS y x).1.packetsNonempty := by
  simp only [tokenTimestampAndEvent.tokenPixel, initContainerCommitTimestamp,
    State.packetsNonempty, State.polarityEvents, State.specialEvents] at h ⊢
  split_ifs <;> simp_all

set_option maxHeartbeats 1000000 in
theorem tokenTS_packetsNonempty (st : State) (y x t1 t2 : Nat)
    (h : st.packetsNonempty) :
    (tokenTimestampAndEvent st y x t1 t2).1.packetsNonempty := by
  simp only [tokenTimestampAndEvent]
  split_ifs with h1 h2 h3
  · unfold initContainerCommitTimestamp
    split_ifs <;>
      simp_all [State.packetsNonempty, State.polarityEvents, State.specialEvents]
  · simp_all [State.packetsNonempty, State.polarityEvents, State.specialEvents]
  · exact tokenPixel_packetsNonempty _ _ _ _ _ _ h
  · exact tokenPixel_packetsNonempty _ _ _ _ _ _ h

set_option maxHeartbeats 4000000 in
theorem commitLogic_delivered_nonempty (env : Env) (s : State) (a b : Bool)
    (h : s.packetsNonempty) :
    ∀ c ∈ (commitLogic env s a b).delivered,
      (∃ l, c.polarity = some l ∧ l ≠ []) ∨ (∃ l, c.special = some l ∧ l ≠ []) := by
  obtain ⟨hp, hs⟩ := h
  rcases Nat.eq_zero_or_pos s.currentPolarityPacketPosition with hp0 | hp0 <;>
    rcases Nat.eq_zero_or_pos s.currentSpecialPacketPosition with hs0 | hs0 <;>
      simp only [commitLogic, hp0, hs0, lt_self_iff_false, if_false, if_true, ite_true,
        ite_false, Option.isSome_some, Option.isSome_none, Option.isNone_some,
        Option.isNone_none, Bool.and_true, Bool.and_false, Bool.true_and, Bool.false_and] <;>
      split_ifs <;>
      intro c hc <;>
      simp_all [State.polarityEvents, State.specialEvents] <;>
      (rcases hc with hc | hc <;> subst hc <;> simp_all)

end Libcaer.Edvs

namespace Libcaer.Dvx

/-- Every in-progress packet whose position is non-zero holds at least one
written event. -/
def State.packetsNonempty (st : State) : Prop :=
  (0 < st.specialPosition → st.specialEvents ≠ []) ∧
  (0 < st.polarityPosition → st.polarityEvents ≠ []) ∧
  (0 < st.imu6Position → st.imu6Events ≠ [])

theorem wellFormed_packetsNonempty_dvx (st : State) (h : st.wellFormed) :
    st.packetsNonempty := by
  obtain ⟨h1, h2, h3, h4, h5, h6⟩ := h
  refine ⟨?_, ?_, ?_⟩
  · intro hp
    rcases ho : st.specialPacket with _ | p
    · exact absurd (h1 ho) (by omega)
    · have := h2 p ho
      simp [State.specialEvents, ho]
      intro hnil
      rw [hnil] at this
      simp at this
      omega
  · intro hp
    rcases ho : st.polarityPacket with _ | p
    · exact absurd (h3 ho) (by omega)
    · have := h4 p ho
      simp [State.polarityEvents, ho]
      intro hnil
      rw [hnil] at this
      simp at this
      omega
  · intro hp
    rcases ho : st.imu6Packet with _ | p
    · exact absurd (h5 ho) (by omega)
    · have := h6 p ho
      simp [State.imu6Events, ho]
      intro hnil
      rw [hnil] at this
      simp at this
      omega

theorem processEvent_alloc_fail (env : Env) (st : State) (ev : Nat)
    (h : (allocatePackets env st).2.2 = false) :
    (processEvent env st ev).delivered = [] := by
  simp only [processEvent]
  rcases hA : allocatePackets env st with ⟨s1, logs, flag⟩
  rw [hA] at h
  simp at h
  subst h
  rfl

set_option maxHeartbeats 2000000 in
theorem allocatePackets_success_dvx (env : Env) (st : State)
    (h : (allocatePackets env st).2.2 = true) :
    ∃ st1, allocatePackets env st = (st1, [], true) ∧
      st1.timestamps = st.timestamps ∧
      st1.container = { st.container with allocated := true } ∧
      st1.specialPosition = st.specialPosition ∧
      st1.polarityPosition = st.polarityPosition ∧
      st1.imu6Position = st.imu6Position ∧
      st1.dvs = st.dvs ∧
      st1.imu = st.imu ∧
      st1.running = st.running ∧
      st1.config = st.config ∧
      st1.specialEvents = st.specialEvents ∧
      st1.polarityEvents = st.polarityEvents ∧
      st1.imu6Events = st.imu6Events := by
  unfold allocatePackets allocIfNone at h ⊢
  rcases hs : st.specialPacket with _ | sp <;>
    rcases hp : st.polarityPacket with _ | pp <;>
      rcases hi : st.imu6Packet with _ | ip <;>
        simp only [hs, hp, hi] at h ⊢ <;>
        split_ifs at h ⊢ <;>
        first
          | exact ⟨_, rfl, by
              simp [State.specialEvents, State.polarityEvents, State.imu6Events, hs, hp, hi]⟩
          | simp_all

theorem appendSpecial_packetsNonempty (env : Env) (st : State) (typ : SpecialType)
    (dbg : Log) (h : st.packetsNonempty) :
    (appendSpecial env st typ dbg).1.packetsNonempty := by
  simp only [appendSpecial, ensureSpaceForEvents, State.packetsNonempty,
    State.specialEvents, State.polarityEvents, State.imu6Events] at h ⊢
  split_ifs <;> simp_all

theorem handleImuEnd_packetsNonempty (env : Env) (st : State)
    (h : st.packetsNonempty) :
    (handleImuEnd env st).1.packetsNonempty := by
  simp only [handleImuEnd, ensureSpaceForEvents, State.packetsNonempty,
    State.specialEvents, State.polarityEvents, State.imu6Events] at h ⊢
  split_ifs <;> simp_all

set_option maxHeartbeats 1000000 in
theorem handleSpecialToken_packetsNonempty (env : Env) (st : State) (data : Nat)
    (h : st.packetsNonempty) :
    (handleSpecialToken env st data).1.packetsNonempty := by
  simp only [handleSpecialToken]
  split_ifs
  · exact h
  · exact h
  · exact appendSpecial_packetsNonempty env st _ _ h
  · exact appendSpecial_packetsNonempty env st _ _ h
  · exact appendSpecial_packetsNonempty env st _ _ h
  · simp_all [State.packetsNonempty, State.specialEvents, State.polarityEvents, State.imu6Events]
  · exact handleImuEnd_packetsNonempty env st h
  · exact appendSpecial_packetsNonempty env st _ _ h
  · exact appendSpecial_packetsNonempty env st _ _ h
  · exact h

theorem handleYToken_packetsNonempty (st : State) (data : Nat)
    (h : st.packetsNonempty) :
    (handleYToken st data).1.packetsNonempty := by
  simp only [handleYToken, State.packetsNonempty,
    State.specialEvents, State.polarityEvents, State.imu6Events] at h ⊢
  split_ifs <;> simp_all

set_option maxHeartbeats 1000000 in
theorem handleGroupToken_packetsNonempty (env : Env) (st : State) (code data : Nat)
    (h : st.packetsNonempty) :
    (handleGroupToken env st code data).1.packetsNonempty := by
  obtain ⟨h1, h2, h3⟩ := h
  simp only [State.packetsNonempty, State.specialEvents, State.polarityEvents,
    State.imu6Events] at h1 h2 h3 ⊢
  simp only [handleGroupToken, ensureSpaceForEvents]
  split_ifs <;>
    simp_all [List.append_eq_nil] <;>
    rintro (hp | hp) hA hB <;>
      first
        | exact h2 hp hA
        | (rw [hB] at hp
           simp at hp)

theorem handleSGroupToken_packetsNonempty (st : State) (data : Nat)
    (h : st.packetsNonempty) :
    (handleSGroupToken st data).1.packetsNonempty := by
  simp only [handleSGroupToken, State.packetsNonempty,
    State.specialEvents, State.polarityEvents, State.imu6Events] at h ⊢
  split_ifs <;> simp_all

theorem handleMisc8Token_packetsNonempty (st : State) (data : Nat)
    (h : st.packetsNonempty) :
    (handleMisc8Token st data).1.packetsNonempty := by
  simp only [handleMisc8Token, State.packetsNonempty,
    State.specialEvents, State.polarityEvents, State.imu6Events] at h ⊢
  split_ifs <;> simp_all

set_option maxHeartbeats 1000000 in
theorem handleWrapToken_packetsNonempty (env : Env) (st : State) (data : Nat)
    (h : st.packetsNonempty) :
    (handleWrapToken env st data).1.packetsNonempty := by
  simp only [handleWrapToken, ensureSpaceForEvents, State.packetsNonempty,
    State.specialEvents, State.polarityEvents, State.imu6Events] at h ⊢
  split_ifs <;> simp_all

set_option maxHeartbeats 1000000 in
theorem handleEvent_packetsNonempty (env : Env) (st : State) (ev : Nat)
    (h : st.packetsNonempty) :
    (handleEvent env st ev).1.packetsNonempty := by
  simp only [handleEvent]
  split_ifs
  · simp_all [State.packetsNonempty, State.specialEvents, State.polarityEvents, State.imu6Events]
  · exact handleSpecialToken_packetsNonempty env st _ h
  · exact handleYToken_packetsNonempty st _ h
  · exact handleGroupToken_packetsNonempty env st _ _ h
  · exact handleSGroupToken_packetsNonempty st _ h
  · exact handleMisc8Token_packetsNonempty st _ h
  · exact handleWrapToken_packetsNonempty env st _ h
  · exact h

theorem execute_delivered_cases (env : Env) (cg : ContainerGen) (e tr : Bool)
    (w cur : Int) (c : Container) :
    ∀ d ∈ (containerGenerationExecute env cg e tr w cur c).2.1,
      (d = c ∧ e = false) ∨
        d = ⟨none, some [⟨int32Max, SpecialType.timestampReset⟩], none⟩ := by
  unfold containerGenerationExecute
  split_ifs <;> intro d hd <;> simp_all

set_option maxHeartbeats 2000000 in
theorem commitLogic_delivered_nonempty_dvx (env : Env) (s : State) (a b : Bool)
    (h : s.packetsNonempty) :
    ∀ c ∈ (commitLogic env s a b).delivered,
      (∃ l, c.polarity = some l ∧ l ≠ []) ∨ (∃ l, c.special = some l ∧ l ≠ []) ∨
        (∃ l, c.imu6 = some l ∧ l ≠ []) := by
  obtain ⟨h1, h2, h3⟩ := h
  simp only [commitLogic]
  split_ifs <;> intro c hc
  · have := execute_delivered_cases env (clearCommitted s).container
      ((commitParts s).polarity.isNone && (commitParts s).special.isNone &&
        (commitParts s).imu6.isNone) a
      s.timestamps.wrapOverflow s.timestamps.current (commitParts s) c (by
        simpa using hc)
    rcases this with ⟨hcc, he⟩ | hcc
    · subst hcc
      simp only [commitParts] at he ⊢
      rcases Nat.eq_zero_or_pos s.polarityPosition with hp0 | hp0 <;>
        rcases Nat.eq_zero_or_pos s.specialPosition with hs0 | hs0 <;>
          rcases Nat.eq_zero_or_pos s.imu6Position with hi0 | hi0 <;>
            simp_all [State.specialEvents, State.polarityEvents, State.imu6Events]
    · subst hcc
      simp
  · have := execute_delivered_cases env (clearCommitted s).container
      ((commitParts s).polarity.isNone && (commitParts s).special.isNone &&
        (commitParts s).imu6.isNone) a
      s.timestamps.wrapOverflow s.timestamps.current (commitParts s) c (by
        simpa using hc)
    rcases this with ⟨hcc, he⟩ | hcc
    · subst hcc
      simp only [commitParts] at he ⊢
      rcases Nat.eq_zero_or_pos s.polarityPosition with hp0 | hp0 <;>
        rcases Nat.eq_zero_or_pos s.specialPosition with hs0 | hs0 <;>
          rcases Nat.eq_zero_or_pos s.imu6Position with hi0 | hi0 <;>
            simp_all [State.specialEvents, State.polarityEvents, State.imu6Events]
    · subst hcc
      simp
  · simp at hc

end Libcaer.Dvx

namespace Libcaer.Edvs

theorem commitLogic_no_commit (env : Env) (s : State)
    (hSize : s.maxPacketContainerPacketSize = 0)
    (hTime : generateFullTimestamp s.timestamps.wrapOverflow s.timestamps.current
      ≤ s.currentPacketContainerCommitTimestamp) :
    commitLogic env s false false = ⟨s, [], [], false, false, false, false, false⟩ := by
  simp [commitLogic, hSize, not_lt.mpr hTime]

theorem allocatePackets_id (env : Env) (st : State) (p : CaerPacket PolarityEvent)
    (q : CaerPacket SpecialEvent) (hC : st.containerAllocated = true)
    (hp : st.currentPolarityPacket = some p)
    (hpc : st.currentPolarityPacketPosition < p.capacity)
    (hq : st.currentSpecialPacket = some q)
    (hqc : st.currentSpecialPacketPosition < q.capacity) :
    allocatePackets env st = (st, [], true) := by
  rcases st with ⟨ts, ca, pp, ppp, sp, spp, ct, iv, sz, rs, rn, cfg⟩
  simp only at hC hp hq hpc hqc
  subst hC hp hq
  simp [allocatePackets, allocOrGrow, not_le.mpr hpc, not_le.mpr hqc]

theorem tokenTS_interval (st : State) (y x t1 t2 : Nat) :
    (tokenTimestampAndEvent st y x t1 t2).1.maxPacketContainerInterval
      = st.maxPacketContainerInterval := by
  simp only [tokenTimestampAndEvent, initContainerCommitTimestamp]
  split_ifs <;> first | rfl | apply tokenPixel_interval

set_option maxHeartbeats 1000000 in
theorem commitLogic_rearm (env : Env) (s : State) (a b : Bool)
    (hInt : 0 < s.maxPacketContainerInterval) :
    (commitLogic env s a b).containerTimeCommit = true →
    generateFullTimestamp s.timestamps.wrapOverflow s.timestamps.current
      ≤ (commitLogic env s a b).state.currentPacketContainerCommitTimestamp := by
  simp only [commitLogic]
  split_ifs <;> intro h <;>
    first
      | exact le_rearmCommitTimestamp _ _ _ hInt
      | simp_all


end Libcaer.Edvs

namespace Libcaer.Dvx

theorem commitLogic_no_commit_dvx (env : Env) (s : State)
    (hSize : s.container.maxPacketSize = 0)
    (hTime : containerGenerationIsCommitTimestampElapsed s.container
      s.timestamps.wrapOverflow s.timestamps.current = false) :
    commitLogic env s false false = ⟨s, [], [], false, false, false, false, false⟩ := by
  simp [commitLogic, containerGenerationGetMaxPacketSize, hSize, hTime]

theorem allocatePackets_id_dvx (env : Env) (st : State)
    (hC : st.container.allocated = true)
    (h1 : st.specialPacket.isSome = true) (h2 : st.polarityPacket.isSome = true)
    (h3 : st.imu6Packet.isSome = true) :
    allocatePackets env st = (st, [], true) := by
  rcases st with ⟨ts, cont, sp, spp, pp, ppp, ip, ipp, dvs, imu, rn, cfg⟩
  rcases cont with ⟨al, cts, iv, sz⟩
  simp only at hC h1 h2 h3
  subst hC
  rcases sp with _ | sp
  · simp at h1
  rcases pp with _ | pp
  · simp at h2
  rcases ip with _ | ip
  · simp at h3
  simp [allocatePackets, allocIfNone]

set_option maxHeartbeats 1000000 in
theorem handleWrapToken_bigwrap (env : Env) (st : State) (data : Nat)
    (hG : env.growSpecialOk = true)
    (hOver : int32Max - (data : Int) * TS_WRAP_ADD < st.timestamps.wrapAdd) :
    (handleWrapToken env st data).1.timestamps
        = ⟨st.timestamps.wrapOverflow + 1, 0, 0, 0, 0⟩ ∧
    (handleWrapToken env st data).1.specialEvents
        = st.specialEvents ++ [⟨int32Max, SpecialType.timestampWrap⟩] ∧
    (handleWrapToken env st data).1.specialPosition = st.specialPosition + 1 ∧
    (handleWrapToken env st data).1.polarityPosition = st.polarityPosition ∧
    (handleWrapToken env st data).1.polarityEvents = st.polarityEvents ∧
    (handleWrapToken env st data).1.imu6Position = st.imu6Position ∧
    (handleWrapToken env st data).1.imu6Events = st.imu6Events ∧
    (handleWrapToken env st data).2.1 = false ∧
    (handleWrapToken env st data).2.2.1 = true := by
  simp only [handleWrapToken, handleTimestampWrapNewLogic, ensureSpaceForEvents, hG,
    if_pos hOver]
  split_ifs <;>
    simp_all [State.specialEvents, State.polarityEvents, State.imu6Events]

set_option maxHeartbeats 1000000 in
theorem commitLogic_bigwrap_dvx (env : Env) (s : State) (hEnv : env = Env.ok)
    (hSp : 0 < s.specialPosition) :
    (commitLogic env s false true).delivered =
      [⟨(if 0 < s.polarityPosition then some s.polarityEvents else none),
        some s.specialEvents,
        (if 0 < s.imu6Position then some s.imu6Events else none)⟩] ∧
    (commitLogic env s false true).tsBigWrap = true := by
  subst hEnv
  simp only [commitLogic]
  rw [execute_delivered_ok]
  simp [commitParts, hSp, State.specialEvents, State.polarityEvents, State.imu6Events]


end Libcaer.Dvx


namespace Libcaer

/-! ## Claim theorems, witnesses and counterexamples -/

end Libcaer

namespace Libcaer

/-! ## Sample states for witnesses and counterexamples -/

/-- A well-formed eDVS state with empty in-progress packets. -/
def eBase : Edvs.State :=
  { timestamps := ⟨0, 0, 0, 0, 0⟩
    containerAllocated := true
    currentPolarityPacket := some ⟨4, []⟩
    currentPolarityPacketPosition := 0
    currentSpecialPacket := some ⟨4, []⟩
    currentSpecialPacketPosition := 0
    currentPacketContainerCommitTimestamp := 1000000
    maxPacketContainerInterval := 10000
    maxPacketContainerPacketSize := 0
    dvsTSReset := false
    running := true
    config := ⟨128, 128, 4, 4⟩ }

/-- eDVS state with one pending polarity event. -/
def ePending : Edvs.State :=
  { eBase with
    currentPolarityPacket := some ⟨4, [⟨7, 5, 0, true⟩]⟩
    currentPolarityPacketPosition := 1 }

/-- eDVS state with pending data and a pending timestamp-reset request. -/
def eResetPending : Edvs.State := { ePending with dvsTSReset := true }


/-- eDVS state one step before a small wrap (last raw field 500). -/
def eSmallWrap : Edvs.State :=
  { eBase with timestamps := ⟨0, 0x20000, 500, 0x20000 + 500, 0x20000 + 500⟩ }

/-- eDVS state whose commit deadline has already passed. -/
def eTimeDue : Edvs.State :=
  { ePending with currentPacketContainerCommitTimestamp := 100 }

/-- C1: the claim as stated is false: with a pending polarity event, the very
next container the consumer observes after the reset is classified is the
flushed pending-data container, not the reset-only container; the reset
container is delivered after it. -/
theorem claim_C1_counterexample :
    (Edvs.processToken Edvs.Env.ok eResetPending 0x80 0x00 0x00 0x09).delivered.head? =
      some ⟨some [⟨7, 5, 0, true⟩], none⟩ ∧
    (Edvs.processToken Edvs.Env.ok eResetPending 0x80 0x00 0x00 0x09).delivered.head? ≠
      some ⟨none, some [⟨int32Max, SpecialType.timestampReset⟩]⟩ := by
  decide

/-- C1 (amended): whenever a timestamp RESET is classified, the decoder
produces a container holding exactly one event, Special(TIMESTAMP_RESET), with
no other pending events merged into it, and that container bypasses normal
batching; pending data, if any, is first flushed in its own container, and the
reset container is delivered immediately after it (ordered after any pending
data rather than ahead of it). -/
theorem claim_C1_reset_isolation (env : Edvs.Env) (st : Edvs.State)
    (y x t1 t2 : Nat) (hEnv : env = Edvs.Env.ok) (hReset : st.dvsTSReset = true) :
    (Edvs.processToken env st y x t1 t2).delivered.getLast? =
      some ⟨none, some [⟨int32Max, SpecialType.timestampReset⟩]⟩ ∧
    (Edvs.processToken env st y x t1 t2).delivered.length =
      (if 0 < st.currentPolarityPacketPosition ∨ 0 < st.currentSpecialPacketPosition
        then 2 else 1) := by
  subst hEnv
  obtain ⟨st1, hA, hTs, hPp, hSp, hCt, hIv, hSz, hDvs, hRun, hCfg, hCa, hPe, hSe, hPs, hSs⟩ :=
    Edvs.allocatePackets_ok st
  rw [hReset] at hDvs
  simp only [Edvs.processToken, hA]
  rw [Edvs.tokenTS_reset _ y x t1 t2 hDvs]
  have hcr := Edvs.commitLogic_reset Edvs.Env.ok
    { st1 with
      timestamps := ⟨0, 0, 0, 0, 0⟩,
      dvsTSReset := false,
      currentPacketContainerCommitTimestamp := st1.maxPacketContainerInterval - 1 }
    rfl false
  dsimp only
  rw [hcr.1]
  simp only [hPp, hSp]
  constructor
  · rcases h : (if 0 < st.currentPolarityPacketPosition ∨ 0 < st.currentSpecialPacketPosition
      then true else false) with _ | _ <;> split_ifs <;> simp_all
  · split_ifs <;> simp_all

/-- C1 witness at a concrete reset with pending data. -/
theorem claim_C1_witness :
    eResetPending.dvsTSReset = true ∧
    (Edvs.processToken Edvs.Env.ok eResetPending 0x80 0x00 0x00 0x09).delivered.getLast? =
      some ⟨none, some [⟨int32Max, SpecialType.timestampReset⟩]⟩ ∧
    (Edvs.processToken Edvs.Env.ok eResetPending 0x80 0x00 0x00 0x09).delivered.length =
      (if 0 < eResetPending.currentPolarityPacketPosition ∨
          0 < eResetPending.currentSpecialPacketPosition then 2 else 1) :=
  ⟨rfl, claim_C1_reset_isolation Edvs.Env.ok eResetPending 0x80 0x00 0x00 0x09 rfl rfl⟩

/-- C2: for every token bearing an on-wire timestamp field that is not
classified as a reset or big wrap: if the field is not below the last seen raw
field, `current = wrapAdd + field` and `lastShort` records the field; if the
field is numerically below the last seen raw field (SMALL_WRAP), `wrapAdd`
first grows by exactly the 16-bit field's range 0x10000 and `lastShort`
resets to 0, after which `current = wrapAdd + field`. -/
theorem claim_C2_timestamp_reconstruction (env : Edvs.Env) (st : Edvs.State)
    (y x t1 t2 : Nat) (hEnv : env = Edvs.Env.ok)
    (hNoReset : st.dvsTSReset = false)
    (hNoBig : st.timestamps.wrapAdd ≠ int32Max - (Edvs.TS_WRAP_ADD - 1)) :
    Edvs.TS_WRAP_ADD = 0x10000 ∧
    (st.timestamps.lastShort ≤ (((t1 <<< 8) ||| t2 : Nat) : Int) →
      (Edvs.processToken env st y x t1 t2).state.timestamps.wrapAdd
          = st.timestamps.wrapAdd ∧
      (Edvs.processToken env st y x t1 t2).state.timestamps.current
          = st.timestamps.wrapAdd + (((t1 <<< 8) ||| t2 : Nat) : Int) ∧
      (Edvs.processToken env st y x t1 t2).state.timestamps.lastShort
          = (((t1 <<< 8) ||| t2 : Nat) : Int)) ∧
    ((((t1 <<< 8) ||| t2 : Nat) : Int) < st.timestamps.lastShort →
      (Edvs.processToken env st y x t1 t2).state.timestamps.wrapAdd
          = st.timestamps.wrapAdd + Edvs.TS_WRAP_ADD ∧
      (Edvs.processToken env st y x t1 t2).state.timestamps.current
          = st.timestamps.wrapAdd + Edvs.TS_WRAP_ADD + (((t1 <<< 8) ||| t2 : Nat) : Int) ∧
      (Edvs.processToken env st y x t1 t2).state.timestamps.lastShort = 0) := by
  subst hEnv
  obtain ⟨st1, hA, hTs, hPp, hSp, hCt, hIv, hSz, hDvs, hRun, hCfg, hCa, hPe, hSe, hPs, hSs⟩ :=
    Edvs.allocatePackets_ok st
  rw [hNoReset] at hDvs
  refine ⟨rfl, ?_, ?_⟩
  · intro h
    have hlt : ¬((((t1 <<< 8) ||| t2 : Nat) : Int) < st.timestamps.lastShort) := not_lt.mpr h
    simp only [Edvs.processToken, hA, Edvs.tokenTimestampAndEvent, hDvs, hTs, hlt,
      Bool.false_eq_true, if_false, ite_false, Edvs.commitLogic_timestamps,
      Edvs.tokenPixel_timestamps]
    simp
  · intro h
    simp only [Edvs.processToken, hA, Edvs.tokenTimestampAndEvent, hDvs, hTs, h,
      Bool.false_eq_true, if_false, ite_false, if_true, ite_true, hNoBig,
      Edvs.commitLogic_timestamps, Edvs.tokenPixel_timestamps]
    simp

/-- C2 witness: a concrete small wrap (field 9 after last field 500). -/
theorem claim_C2_witness :
    ((9 : Int) < eSmallWrap.timestamps.lastShort →
      (Edvs.processToken Edvs.Env.ok eSmallWrap 0x80 0x05 0x00 0x09).state.timestamps.wrapAdd
          = eSmallWrap.timestamps.wrapAdd + Edvs.TS_WRAP_ADD ∧
      (Edvs.processToken Edvs.Env.ok eSmallWrap 0x80 0x05 0x00 0x09).state.timestamps.current
          = eSmallWrap.timestamps.wrapAdd + Edvs.TS_WRAP_ADD + 9 ∧
      (Edvs.processToken Edvs.Env.ok eSmallWrap 0x80 0x05 0x00 0x09).state.timestamps.lastShort
          = 0) ∧
    (9 : Int) < eSmallWrap.timestamps.lastShort :=
  ⟨by
    have h := claim_C2_timestamp_reconstruction Edvs.Env.ok eSmallWrap 0x80 0x05 0x00 0x09
      rfl rfl (by decide)
    exact fun hlt => by simpa using h.2.2 (by simpa using hlt),
   by decide⟩

/-- C6: every time the time-based commit trigger fires, the deadline is
re-armed by repeatedly adding the configured interval, so that immediately
after a time-triggered commit the deadline is not in the past relative to the
reconstructed full timestamp. -/
theorem claim_C6_time_trigger_rearm (env : Edvs.Env) (st : Edvs.State)
    (y x t1 t2 : Nat) (hEnv : env = Edvs.Env.ok)
    (hInt : 0 < st.maxPacketContainerInterval) :
    (Edvs.processToken env st y x t1 t2).containerTimeCommit = true →
    generateFullTimestamp
        (Edvs.processToken env st y x t1 t2).state.timestamps.wrapOverflow
        (Edvs.processToken env st y x t1 t2).state.timestamps.current
      ≤ (Edvs.processToken env st y x t1 t2).state.currentPacketContainerCommitTimestamp := by
  subst hEnv
  obtain ⟨st1, hA, hTs, hPp, hSp, hCt, hIv, hSz, hDvs, hRun, hCfg, hCa, hPe, hSe, hPs, hSs⟩ :=
    Edvs.allocatePackets_ok st
  simp only [Edvs.processToken, hA]
  intro h
  have hInt2 : 0 < ((Edvs.tokenTimestampAndEvent st1 y x t1 t2).1).maxPacketContainerInterval := by
    rw [Edvs.tokenTS_interval, hIv]
    exact hInt
  have hr := Edvs.commitLogic_rearm Edvs.Env.ok ((Edvs.tokenTimestampAndEvent st1 y x t1 t2).1)
    ((Edvs.tokenTimestampAndEvent st1 y x t1 t2).2.1)
    ((Edvs.tokenTimestampAndEvent st1 y x t1 t2).2.2.1) hInt2 h
  rw [Edvs.commitLogic_timestamps]
  exact hr

/-- C6 witness: a token whose reconstructed timestamp passes the deadline. -/
theorem claim_C6_witness :
    0 < eTimeDue.maxPacketContainerInterval ∧
    ((Edvs.processToken Edvs.Env.ok eTimeDue 0x80 0x05 0x30 0x00).containerTimeCommit = true →
      generateFullTimestamp
          (Edvs.processToken Edvs.Env.ok eTimeDue 0x80 0x05 0x30 0x00).state.timestamps.wrapOverflow
          (Edvs.processToken Edvs.Env.ok eTimeDue 0x80 0x05 0x30 0x00).state.timestamps.current
        ≤ (Edvs.processToken Edvs.Env.ok eTimeDue
            0x80 0x05 0x30 0x00).state.currentPacketContainerCommitTimestamp) :=
  ⟨by decide, claim_C6_time_trigger_rearm Edvs.Env.ok eTimeDue 0x80 0x05 0x30 0x00 rfl (by decide)⟩

end Libcaer

namespace Libcaer

def eBase2 : Edvs.State :=
  { timestamps := ⟨0, 0, 0, 0, 0⟩
    containerAllocated := true
    currentPolarityPacket := some ⟨4, []⟩
    currentPolarityPacketPosition := 0
    currentSpecialPacket := some ⟨4, []⟩
    currentSpecialPacketPosition := 0
    currentPacketContainerCommitTimestamp := 1000000
    maxPacketContainerInterval := 10000
    maxPacketContainerPacketSize := 0
    dvsTSReset := false
    running := true
    config := ⟨128, 128, 4, 4⟩ }

/-- eDVS state whose coarse offset is at the top of the 32-bit range, one
small wrap away from the big wrap. -/
def eBigWrapReady : Edvs.State :=
  { eBase2 with timestamps := ⟨0, int32Max - 0xFFFF, 500, 5, 5⟩ }

/-- DV Explorer state with all packets allocated and assembly idle. -/
def dBase : Dvx.State :=
  { timestamps := ⟨0, 0, 0, 0, 0⟩
    container := ⟨true, 1000000, 10000, 0⟩
    specialPacket := some ⟨4, []⟩
    specialPosition := 0
    polarityPacket := some ⟨4, []⟩
    polarityPosition := 0
    imu6Packet := some ⟨4, []⟩
    imu6Position := 0
    dvs := ⟨0, 0, 640, 480, false⟩
    imu := ⟨false, 0, 0, 0, 0, 0, false, false, false, Dvx.Imu6Event.zero⟩
    running := true
    config := ⟨4, 4, 4⟩ }

/-- DV Explorer state whose coarse offset would overflow on the next wrap. -/
def dWrapReady : Dvx.State := { dBase with timestamps := ⟨0, int32Max - 100, 0, 5, 5⟩ }

/-- C3: a wrap of the narrow field while wrapAdd is at the top of its 32-bit
range increments the overflow epoch by exactly 1, resets wrapAdd and the last
raw field to 0, appends a sentinel Special(TIMESTAMP_WRAP) event, and forces a
container commit on that same token, on both decoders. -/
theorem claim_C3_big_wrap (envE : Edvs.Env) (stE : Edvs.State) (y x t1 t2 : Nat)
    (hEnvE : envE = Edvs.Env.ok) (hNoReset : stE.dvsTSReset = false)
    (hW : (((t1 <<< 8) ||| t2 : Nat) : Int) < stE.timestamps.lastShort)
    (hBig : stE.timestamps.wrapAdd = int32Max - (Edvs.TS_WRAP_ADD - 1))
    (envD : Dvx.Env) (stD : Dvx.State) (ev : Nat)
    (hEnvD : envD = Dvx.Env.ok)
    (hTsBit : ev &&& 0x8000 = 0) (hCode : (ev &&& 0x7000) >>> 12 = 7)
    (hOver : int32Max - ((ev &&& 0x0FFF : Nat) : Int) * Dvx.TS_WRAP_ADD
      < stD.timestamps.wrapAdd) :
    (Edvs.processToken envE stE y x t1 t2).state.timestamps.wrapOverflow
        = stE.timestamps.wrapOverflow + 1 ∧
    (Edvs.processToken envE stE y x t1 t2).state.timestamps.wrapAdd = 0 ∧
    (Edvs.processToken envE stE y x t1 t2).state.timestamps.lastShort = 0 ∧
    (Edvs.processToken envE stE y x t1 t2).tsBigWrap = true ∧
    (Edvs.processToken envE stE y x t1 t2).delivered =
      [⟨(if 0 < stE.currentPolarityPacketPosition then some stE.polarityEvents else none),
        some (stE.specialEvents ++ [⟨int32Max, SpecialType.timestampWrap⟩])⟩] ∧
    (Dvx.processEvent envD stD ev).state.timestamps.wrapOverflow
        = stD.timestamps.wrapOverflow + 1 ∧
    (Dvx.processEvent envD stD ev).state.timestamps.wrapAdd = 0 ∧
    (Dvx.processEvent envD stD ev).state.timestamps.lastRaw = 0 ∧
    (Dvx.processEvent envD stD ev).tsBigWrap = true ∧
    (Dvx.processEvent envD stD ev).delivered =
      [⟨(if 0 < stD.polarityPosition then some stD.polarityEvents else none),
        some (stD.specialEvents ++ [⟨int32Max, SpecialType.timestampWrap⟩]),
        (if 0 < stD.imu6Position then some stD.imu6Events else none)⟩] := by
  subst hEnvE
  subst hEnvD
  obtain ⟨st1, hA, hTs, hPp, hSp, hCt, hIv, hSz, hDvs, hRun, hCfg, hCa, hPe, hSe, hPs, hSs⟩ :=
    Edvs.allocatePackets_ok stE
  rw [hNoReset] at hDvs
  have hW1 : (((t1 <<< 8) ||| t2 : Nat) : Int) < st1.timestamps.lastShort := by
    rw [hTs]; exact hW
  have hBig1 : st1.timestamps.wrapAdd = int32Max - (Edvs.TS_WRAP_ADD - 1) := by
    rw [hTs]; exact hBig
  obtain ⟨st2, hA2, hTs2, hCont2, hSp2, hPp2, hIp2, hDvs2, hImu2, hRun2, hCfg2,
    hSe2, hPe2, hIe2, hS2a, hS2b, hS2c⟩ := Dvx.allocatePackets_ok_dvx stD
  have hOver2 : int32Max - ((ev &&& 0x0FFF : Nat) : Int) * Dvx.TS_WRAP_ADD
      < st2.timestamps.wrapAdd := by
    rw [hTs2]; exact hOver
  obtain ⟨hwTs, hwSe, hwSp, hwPp, hwPe, hwIp, hwIe, hwF1, hwF2⟩ :=
    Dvx.handleWrapToken_bigwrap Dvx.Env.ok st2 (ev &&& 0x0FFF) rfl hOver2
  have hED : Edvs.processToken Edvs.Env.ok stE y x t1 t2 =
      Edvs.commitLogic Edvs.Env.ok
        { st1 with
          timestamps := ⟨st1.timestamps.wrapOverflow + 1, 0, 0, 0, 0⟩,
          currentSpecialPacket := some ⟨(st1.currentSpecialPacket.getD ⟨0, []⟩).capacity,
            st1.specialEvents ++ [⟨int32Max, SpecialType.timestampWrap⟩]⟩,
          currentSpecialPacketPosition := st1.currentSpecialPacketPosition + 1 }
        false true := by
    simp only [Edvs.processToken, hA]
    rw [Edvs.tokenTS_bigwrap st1 y x t1 t2 hDvs hW1 hBig1]
    rfl
  have hcbE := Edvs.commitLogic_bigwrap Edvs.Env.ok
    { st1 with
      timestamps := ⟨st1.timestamps.wrapOverflow + 1, 0, 0, 0, 0⟩,
      currentSpecialPacket := some ⟨(st1.currentSpecialPacket.getD ⟨0, []⟩).capacity,
        st1.specialEvents ++ [⟨int32Max, SpecialType.timestampWrap⟩]⟩,
      currentSpecialPacketPosition := st1.currentSpecialPacketPosition + 1 }
    rfl (Nat.succ_pos _)
  have hDD : Dvx.processEvent Dvx.Env.ok stD ev =
      { Dvx.commitLogic Dvx.Env.ok (Dvx.handleWrapToken Dvx.Env.ok st2 (ev &&& 0x0FFF)).1
          false true with
        logs := (Dvx.handleWrapToken Dvx.Env.ok st2 (ev &&& 0x0FFF)).2.2.2 ++
          (Dvx.commitLogic Dvx.Env.ok (Dvx.handleWrapToken Dvx.Env.ok st2 (ev &&& 0x0FFF)).1
            false true).logs } := by
    simp only [Dvx.processEvent, hA2]
    simp only [Dvx.handleEvent, hTsBit, hCode]
    norm_num
    rw [hwF1, hwF2]
    and_intros <;> rfl
  have hcbD := Dvx.commitLogic_bigwrap_dvx Dvx.Env.ok
    (Dvx.handleWrapToken Dvx.Env.ok st2 (ev &&& 0x0FFF)).1 rfl
    (by rw [hwSp]; exact Nat.succ_pos _)
  refine ⟨?_, ?_, ?_, ?_, ?_, ?_, ?_, ?_, ?_, ?_⟩
  · rw [hED, Edvs.commitLogic_timestamps]
    show st1.timestamps.wrapOverflow + 1 = _
    rw [hTs]
  · rw [hED, Edvs.commitLogic_timestamps]
  · rw [hED, Edvs.commitLogic_timestamps]
  · rw [hED]
    exact hcbE.2
  · rw [hED, hcbE.1]
    simp only [Edvs.State.polarityEvents, Edvs.State.specialEvents] at hPe hSe ⊢
    simp [hPp, hPe, hSe]
  · rw [hDD]
    dsimp only
    rw [Dvx.commitLogic_state_timestamps, hwTs]
    rw [hTs2]
  · rw [hDD]
    dsimp only
    rw [Dvx.commitLogic_state_timestamps, hwTs]
  · rw [hDD]
    dsimp only
    rw [Dvx.commitLogic_state_timestamps, hwTs]
  · rw [hDD]
    dsimp only
    exact (Dvx.commitLogic_flags _ _ _ _).2
  · rw [hDD]
    dsimp only
    rw [hcbD.1, hwPp, hwSe, hwIp]
    rw [hwPe, hwIe, hPp2, hIp2, hPe2, hIe2, hSe2]

/-- C3 witness: concrete big wraps on both decoders. -/
theorem claim_C3_witness :
    eBigWrapReady.timestamps.wrapAdd = int32Max - (Edvs.TS_WRAP_ADD - 1) ∧
    (Edvs.processToken Edvs.Env.ok eBigWrapReady 0x80 0x05 0x00 0x01).tsBigWrap = true ∧
    (Dvx.processEvent Dvx.Env.ok dWrapReady 0x7064).tsBigWrap = true := by
  have h := claim_C3_big_wrap Edvs.Env.ok eBigWrapReady 0x80 0x05 0x00 0x01 rfl rfl
    (by decide) (by decide) Dvx.Env.ok dWrapReady 0x7064 rfl (by decide) (by decide)
    (by decide)
  exact ⟨by decide, h.2.2.2.1, h.2.2.2.2.2.2.2.2.1⟩

/-- C10: every discontinuity sentinel Special event -- TIMESTAMP_WRAP on a big
wrap (both decoders) and TIMESTAMP_RESET on a reset -- carries the timestamp
value INT32_MAX, not the just-zeroed reconstructed timestamp. -/
theorem claim_C10_sentinel_timestamps :
    (∀ (st : Edvs.State) (y x t1 t2 : Nat),
      st.dvsTSReset = false →
      (((t1 <<< 8) ||| t2 : Nat) : Int) < st.timestamps.lastShort →
      st.timestamps.wrapAdd = int32Max - (Edvs.TS_WRAP_ADD - 1) →
      (Edvs.tokenTimestampAndEvent st y x t1 t2).1.specialEvents.getLast?
        = some ⟨int32Max, SpecialType.timestampWrap⟩) ∧
    (∀ (env : Edvs.Env) (st : Edvs.State) (y x t1 t2 : Nat),
      env = Edvs.Env.ok → st.dvsTSReset = true →
      (Edvs.processToken env st y x t1 t2).delivered.getLast?
        = some ⟨none, some [⟨int32Max, SpecialType.timestampReset⟩]⟩) ∧
    (∀ (env : Dvx.Env) (st : Dvx.State) (data : Nat),
      env = Dvx.Env.ok →
      int32Max - (data : Int) * Dvx.TS_WRAP_ADD < st.timestamps.wrapAdd →
      (Dvx.handleWrapToken env st data).1.specialEvents.getLast?
        = some ⟨int32Max, SpecialType.timestampWrap⟩) := by
  refine ⟨?_, ?_, ?_⟩
  · intro st y x t1 t2 h1 h2 h3
    rw [Edvs.tokenTS_bigwrap st y x t1 t2 h1 h2 h3]
    simp [Edvs.State.specialEvents]
  · intro env st y x t1 t2 hEnv hReset
    subst hEnv
    obtain ⟨st1, hA, hTs, hPp, hSp, hCt, hIv, hSz, hDvs, hRun, hCfg, hCa, hPe, hSe, hPs, hSs⟩ :=
      Edvs.allocatePackets_ok st
    rw [hReset] at hDvs
    simp only [Edvs.processToken, hA]
    rw [Edvs.tokenTS_reset st1 y x t1 t2 hDvs]
    have hr := Edvs.commitLogic_reset Edvs.Env.ok
      { st1 with
        timestamps := ⟨0, 0, 0, 0, 0⟩,
        dvsTSReset := false,
        currentPacketContainerCommitTimestamp := st1.maxPacketContainerInterval - 1 }
      rfl false
    show (Edvs.commitLogic Edvs.Env.ok _ true false).delivered.getLast? = _
    rw [hr.1]
    split_ifs <;> simp
  · intro env st data hEnv hOver
    subst hEnv
    obtain ⟨hwTs, hwSe, hwSp, hwPp, hwPe, hwIp, hwIe, hwF1, hwF2⟩ :=
      Dvx.handleWrapToken_bigwrap Dvx.Env.ok st data rfl hOver
    rw [hwSe]
    simp

/-- C10 witness: the sentinel timestamps at concrete big-wrap and reset states. -/
theorem claim_C10_witness :
    (Edvs.tokenTimestampAndEvent eBigWrapReady 0x80 0x05 0x00 0x02).1.specialEvents.getLast?
        = some ⟨int32Max, SpecialType.timestampWrap⟩ ∧
    (Edvs.processToken Edvs.Env.ok { eBase2 with dvsTSReset := true }
        0x80 0x00 0x00 0x09).delivered.getLast?
        = some ⟨none, some [⟨int32Max, SpecialType.timestampReset⟩]⟩ ∧
    (Dvx.handleWrapToken Dvx.Env.ok dWrapReady 100).1.specialEvents.getLast?
        = some ⟨int32Max, SpecialType.timestampWrap⟩ :=
  ⟨claim_C10_sentinel_timestamps.1 eBigWrapReady 0x80 0x05 0x00 0x02 rfl (by decide) (by decide),
   claim_C10_sentinel_timestamps.2.1 Edvs.Env.ok { eBase2 with dvsTSReset := true }
     0x80 0x00 0x00 0x09 rfl rfl,
   claim_C10_sentinel_timestamps.2.2 Dvx.Env.ok dWrapReady 100 rfl (by decide)⟩

end Libcaer

namespace Libcaer

def eBase5 : Edvs.State :=
  { timestamps := ⟨0, 0, 0, 0, 0⟩
    containerAllocated := true
    currentPolarityPacket := some ⟨4, []⟩
    currentPolarityPacketPosition := 0
    currentSpecialPacket := some ⟨4, []⟩
    currentSpecialPacketPosition := 0
    currentPacketContainerCommitTimestamp := 1000000
    maxPacketContainerInterval := 10000
    maxPacketContainerPacketSize := 0
    dvsTSReset := true
    running := true
    config := ⟨128, 128, 4, 4⟩ }

def dBase5 : Dvx.State :=
  { timestamps := ⟨0, 0, 0, 0, 0⟩
    container := ⟨true, 1000000, 10000, 0⟩
    specialPacket := some ⟨4, []⟩
    specialPosition := 0
    polarityPacket := some ⟨4, []⟩
    polarityPosition := 0
    imu6Packet := some ⟨4, []⟩
    imu6Position := 0
    dvs := ⟨0, 0, 640, 480, false⟩
    imu := ⟨false, 0, 0, 0, 0, 0, false, false, false, Dvx.Imu6Event.zero⟩
    running := true
    config := ⟨4, 4, 4⟩ }

/-- C5: a single decoding step never delivers an empty container: every
container handed out by either decoder holds at least one non-empty packet,
provided the in-progress packets are consistent with their positions. -/
theorem claim_C5_no_empty_containers :
    (∀ (env : Edvs.Env) (st : Edvs.State) (y x t1 t2 : Nat),
      st.wellFormed →
      ∀ c ∈ (Edvs.processToken env st y x t1 t2).delivered,
        (∃ l, c.polarity = some l ∧ l ≠ []) ∨ (∃ l, c.special = some l ∧ l ≠ [])) ∧
    (∀ (env : Dvx.Env) (st : Dvx.State) (ev : Nat),
      st.wellFormed →
      ∀ c ∈ (Dvx.processEvent env st ev).delivered,
        (∃ l, c.polarity = some l ∧ l ≠ []) ∨ (∃ l, c.special = some l ∧ l ≠ []) ∨
          (∃ l, c.imu6 = some l ∧ l ≠ [])) := by
  constructor
  · intro env st y x t1 t2 hWF c hc
    have hne := Edvs.wellFormed_packetsNonempty st hWF
    rcases hflag : (Edvs.allocatePackets env st).2.2 with _ | _
    · rw [Edvs.processToken_alloc_fail env st y x t1 t2 hflag] at hc
      simp at hc
    · obtain ⟨st1, hA, hTs, hPp, hSp, hCt, hIv, hSz, hDvs, hRun, hCfg, hPe, hSe⟩ :=
        Edvs.allocatePackets_success env st hflag
      have hne1 : st1.packetsNonempty := by
        unfold Edvs.State.packetsNonempty at hne ⊢
        rw [hPp, hSp, hPe, hSe]
        exact hne
      simp only [Edvs.processToken, hA] at hc
      exact Edvs.commitLogic_delivered_nonempty env _ _ _
        (Edvs.tokenTS_packetsNonempty st1 y x t1 t2 hne1) c hc
  · intro env st ev hWF c hc
    have hne := Dvx.wellFormed_packetsNonempty_dvx st hWF
    rcases hflag : (Dvx.allocatePackets env st).2.2 with _ | _
    · rw [Dvx.processEvent_alloc_fail env st ev hflag] at hc
      simp at hc
    · obtain ⟨st1, hA, hTs, hCont, hSpP, hPpP, hImP, hDvs, hImu, hRun, hCfg,
        hSpE, hPpE, hImE⟩ := Dvx.allocatePackets_success_dvx env st hflag
      have hne1 : st1.packetsNonempty := by
        unfold Dvx.State.packetsNonempty at hne ⊢
        rw [hSpP, hPpP, hImP, hSpE, hPpE, hImE]
        exact hne
      simp only [Dvx.processEvent, hA] at hc
      exact Dvx.commitLogic_delivered_nonempty_dvx env _ _ _
        (Dvx.handleEvent_packetsNonempty env st1 ev hne1) c hc

/-- C5 witness: a reset step on each decoder delivers a container whose
special packet is non-empty. -/
theorem claim_C5_witness :
    eBase5.wellFormed ∧ dBase5.wellFormed ∧
    ((⟨none, some [⟨int32Max, SpecialType.timestampReset⟩]⟩ : Edvs.Container)
        ∈ (Edvs.processToken Edvs.Env.ok eBase5 0x80 0x00 0x00 0x09).delivered) ∧
    ((∃ l, (⟨none, some [⟨int32Max, SpecialType.timestampReset⟩]⟩ : Edvs.Container).polarity
          = some l ∧ l ≠ []) ∨
     (∃ l, (⟨none, some [⟨int32Max, SpecialType.timestampReset⟩]⟩ : Edvs.Container).special
          = some l ∧ l ≠ [])) ∧
    ((⟨none, some [⟨int32Max, SpecialType.timestampReset⟩], none⟩ : Dvx.Container)
        ∈ (Dvx.processEvent Dvx.Env.ok dBase5 0x0001).delivered) ∧
    ((∃ l, (⟨none, some [⟨int32Max, SpecialType.timestampReset⟩], none⟩ : Dvx.Container).polarity
          = some l ∧ l ≠ []) ∨
     (∃ l, (⟨none, some [⟨int32Max, SpecialType.timestampReset⟩], none⟩ : Dvx.Container).special
          = some l ∧ l ≠ []) ∨
     (∃ l, (⟨none, some [⟨int32Max, SpecialType.timestampReset⟩], none⟩ : Dvx.Container).imu6
          = some l ∧ l ≠ [])) := by
  have hwfE : eBase5.wellFormed := by
    refine ⟨fun h => by simp [eBase5] at h, fun p hp => ?_, fun h => by simp [eBase5] at h,
      fun p hp => ?_⟩ <;>
    · simp only [eBase5] at hp ⊢
      cases Option.some.inj hp
      rfl
  have hwfD : dBase5.wellFormed := by
    refine ⟨fun h => by simp [dBase5] at h, fun p hp => ?_, fun h => by simp [dBase5] at h,
      fun p hp => ?_, fun h => by simp [dBase5] at h, fun p hp => ?_⟩ <;>
    · simp only [dBase5] at hp ⊢
      cases Option.some.inj hp
      rfl
  have hmE : (⟨none, some [⟨int32Max, SpecialType.timestampReset⟩]⟩ : Edvs.Container)
      ∈ (Edvs.processToken Edvs.Env.ok eBase5 0x80 0x00 0x00 0x09).delivered := by decide
  have hmD : (⟨none, some [⟨int32Max, SpecialType.timestampReset⟩], none⟩ : Dvx.Container)
      ∈ (Dvx.processEvent Dvx.Env.ok dBase5 0x0001).delivered := by decide
  exact ⟨hwfE, hwfD, hmE,
    claim_C5_no_empty_containers.1 Edvs.Env.ok eBase5 0x80 0x00 0x00 0x09 hwfE _ hmE,
    hmD,
    claim_C5_no_empty_containers.2 Dvx.Env.ok dBase5 0x0001 hwfD _ hmD⟩

end Libcaer

namespace Libcaer

def dBase4 : Dvx.State :=
  { timestamps := ⟨0, 0, 0, 0, 0⟩
    container := ⟨true, 1000000, 10000, 0⟩
    specialPacket := some ⟨4, []⟩
    specialPosition := 0
    polarityPacket := some ⟨4, []⟩
    polarityPosition := 0
    imu6Packet := some ⟨4, []⟩
    imu6Position := 0
    dvs := ⟨0, 0, 640, 480, false⟩
    imu := ⟨false, 0, 0, 0, 0, 0, false, false, false, Dvx.Imu6Event.zero⟩
    running := true
    config := ⟨4, 4, 4⟩ }

/-- Assembly just finished all 14 fragments, END still pending. -/
def dImuReady : Dvx.State :=
  { dBase4 with
    timestamps := ⟨0, 0, 40, 40, 40⟩
    imu := ⟨false, Dvx.IMU_TOTAL_COUNT, 0, 7, 1, 1, false, false, false,
      ⟨0, 10, 11, 12, 20, 21, 22, 7, false⟩⟩ }

/-- Assembly interrupted after only 3 fragments. -/
def dImuShort : Dvx.State :=
  { dBase4 with
    imu := ⟨false, 3, 0, Dvx.IMU_TYPE_ACCEL, 1, 1, false, false, false,
      ⟨0, 10, 11, 12, 0, 0, 0, 0, false⟩⟩ }

/-- Assembly suppressed after a forced commit. -/
def dIgnoring : Dvx.State :=
  { dBase4 with
    imu := ⟨true, 5, 0, Dvx.IMU_TYPE_ACCEL, 1, 1, false, false, false,
      ⟨0, 10, 11, 12, 0, 0, 0, 0, false⟩⟩ }

/-- C4: composite (IMU) samples are atomic. Unless a well-counted END marker
fires, a step conserves the written IMU events (no partial copy ever reaches a
delivered container); a well-counted END appends exactly the completed private
sample stamped with the current timestamp; a mismatched END discards the
sample and logs the discrepancy; a forced commit (reset or big wrap) sets
ignoreEvents, under which fragments and ENDs leave assembly untouched until a
START resumes it from a zeroed private event. -/
theorem claim_C4_imu_atomicity :
    (∀ (st : Dvx.State) (ev : Nat),
      ¬(Dvx.isImuEnd ev ∧ st.imu.ignoreEvents = false ∧
          st.imu.count = Dvx.IMU_TOTAL_COUNT) →
      Dvx.deliveredImu6 (Dvx.processEvent Dvx.Env.ok st ev).delivered
        ++ (Dvx.processEvent Dvx.Env.ok st ev).state.imu6Events = st.imu6Events) ∧
    (∀ (st : Dvx.State) (ev : Nat),
      Dvx.isImuEnd ev → st.imu.ignoreEvents = false →
      st.imu.count = Dvx.IMU_TOTAL_COUNT →
      Dvx.deliveredImu6 (Dvx.processEvent Dvx.Env.ok st ev).delivered
        ++ (Dvx.processEvent Dvx.Env.ok st ev).state.imu6Events
        = st.imu6Events ++ [Dvx.imuCompleted st]) ∧
    (∀ (env : Dvx.Env) (st : Dvx.State) (ev : Nat),
      Dvx.isImuEnd ev → st.imu.ignoreEvents = false →
      st.imu.count ≠ Dvx.IMU_TOTAL_COUNT →
      Dvx.handleEvent env st ev =
        (st, false, false, [Dvx.Log.imuEndReceived, Dvx.Log.imuEndCountMismatch])) ∧
    (∀ (env : Dvx.Env) (s : Dvx.State) (a b : Bool), a = true ∨ b = true →
      (Dvx.commitLogic env s a b).state.imu.ignoreEvents = true) ∧
    (∀ (env : Dvx.Env) (st : Dvx.State) (ev : Nat),
      st.imu.ignoreEvents = true → (Dvx.isImuFragment ev ∨ Dvx.isImuEnd ev) →
      (Dvx.handleEvent env st ev).1.imu = st.imu) ∧
    (∀ (env : Dvx.Env) (st : Dvx.State) (ev : Nat),
      Dvx.isImuStart ev →
      (Dvx.handleEvent env st ev).1.imu =
        { st.imu with
          ignoreEvents := false,
          count := 0,
          typ := 0,
          currentEvent := Dvx.Imu6Event.zero }) := by
  refine ⟨?_, ?_, ?_, ?_, ?_, ?_⟩
  · intro st ev hNot
    obtain ⟨st1, hA, hTs, hCont, hSpP, hPpP, hImP, hDvs, hImu, hRun, hCfg,
      hSpE, hPpE, hImE, h1, h2, h3⟩ := Dvx.allocatePackets_ok_dvx st
    simp only [Dvx.processEvent, hA]
    rw [Dvx.commitLogic_imu6_conservation Dvx.Env.ok
      (Dvx.handleEvent Dvx.Env.ok st1 ev).1
      (Dvx.handleEvent Dvx.Env.ok st1 ev).2.1
      (Dvx.handleEvent Dvx.Env.ok st1 ev).2.2.1 rfl]
    have hNot1 : ¬(Dvx.isImuEnd ev ∧ st1.imu.ignoreEvents = false ∧
        st1.imu.count = Dvx.IMU_TOTAL_COUNT) := by
      rw [hImu]; exact hNot
    rw [(Dvx.handleEvent_imu6_unchanged Dvx.Env.ok st1 ev hNot1).1, hImE]
  · intro st ev hEnd hIgn hCnt
    obtain ⟨st1, hA, hTs, hCont, hSpP, hPpP, hImP, hDvs, hImu, hRun, hCfg,
      hSpE, hPpE, hImE, h1, h2, h3⟩ := Dvx.allocatePackets_ok_dvx st
    simp only [Dvx.processEvent, hA]
    rw [Dvx.commitLogic_imu6_conservation Dvx.Env.ok
      (Dvx.handleEvent Dvx.Env.ok st1 ev).1
      (Dvx.handleEvent Dvx.Env.ok st1 ev).2.1
      (Dvx.handleEvent Dvx.Env.ok st1 ev).2.2.1 rfl]
    rw [(Dvx.handleEvent_imu6_append Dvx.Env.ok st1 ev rfl hEnd
      (by rw [hImu]; exact hIgn) (by rw [hImu]; exact hCnt)).1, hImE]
    unfold Dvx.imuCompleted
    rw [hImu, hTs]
  · intro env st ev hEnd hIgn hCnt
    exact Dvx.handleEvent_end_mismatch env st ev hEnd hIgn hCnt
  · intro env s a b hab
    exact Dvx.commitLogic_forced_ignore env s a b hab
  · intro env st ev hIgn hTok
    exact (Dvx.handleEvent_ignored env st ev hIgn hTok).1
  · intro env st ev hS
    exact (Dvx.handleEvent_start env st ev hS).1

/-- C4 witness: each atomicity facet at a concrete assembly state. -/
theorem claim_C4_witness :
    (¬(Dvx.isImuEnd 0x0000 ∧ dBase4.imu.ignoreEvents = false ∧
        dBase4.imu.count = Dvx.IMU_TOTAL_COUNT)) ∧
    (Dvx.deliveredImu6 (Dvx.processEvent Dvx.Env.ok dBase4 0x0000).delivered
      ++ (Dvx.processEvent Dvx.Env.ok dBase4 0x0000).state.imu6Events
      = dBase4.imu6Events) ∧
    (Dvx.deliveredImu6 (Dvx.processEvent Dvx.Env.ok dImuReady 0x0007).delivered
      ++ (Dvx.processEvent Dvx.Env.ok dImuReady 0x0007).state.imu6Events
      = dImuReady.imu6Events ++ [Dvx.imuCompleted dImuReady]) ∧
    (Dvx.handleEvent Dvx.Env.ok dImuShort 0x0007
      = (dImuShort, false, false, [Dvx.Log.imuEndReceived, Dvx.Log.imuEndCountMismatch])) ∧
    ((Dvx.commitLogic Dvx.Env.ok dBase4 true false).state.imu.ignoreEvents = true) ∧
    ((Dvx.handleEvent Dvx.Env.ok dIgnoring 0x5000).1.imu = dIgnoring.imu) ∧
    ((Dvx.handleEvent Dvx.Env.ok dIgnoring 0x0005).1.imu =
      { dIgnoring.imu with
        ignoreEvents := false,
        count := 0,
        typ := 0,
        currentEvent := Dvx.Imu6Event.zero }) :=
  ⟨fun h => absurd h.1.2.2 (by decide),
   claim_C4_imu_atomicity.1 dBase4 0x0000 (fun h => absurd h.1.2.2 (by decide)),
   claim_C4_imu_atomicity.2.1 dImuReady 0x0007 ⟨by decide, by decide, by decide⟩ rfl (by decide),
   claim_C4_imu_atomicity.2.2.1 Dvx.Env.ok dImuShort 0x0007
     ⟨by decide, by decide, by decide⟩ rfl (by decide),
   claim_C4_imu_atomicity.2.2.2.1 Dvx.Env.ok dBase4 true false (Or.inl rfl),
   claim_C4_imu_atomicity.2.2.2.2.1 Dvx.Env.ok dIgnoring 0x5000 rfl
     (Or.inl ⟨by decide, by decide, Or.inl (by decide)⟩),
   claim_C4_imu_atomicity.2.2.2.2.2 Dvx.Env.ok dIgnoring 0x0005
     ⟨by decide, by decide, by decide⟩⟩

end Libcaer

namespace Libcaer

/-- DV Explorer state for the range-rejection witness; lastY deliberately
distinct from the rejected column. -/
def dRange : Dvx.State :=
  { timestamps := ⟨0, 0, 0, 0, 0⟩
    container := ⟨true, 1000000, 10000, 0⟩
    specialPacket := some ⟨4, []⟩
    specialPosition := 0
    polarityPacket := some ⟨4, []⟩
    polarityPosition := 0
    imu6Packet := some ⟨4, []⟩
    imu6Position := 0
    dvs := ⟨7, 9, 640, 480, false⟩
    imu := ⟨false, 0, 0, 0, 0, 0, false, false, false, Dvx.Imu6Event.zero⟩
    running := true
    config := ⟨4, 4, 4⟩ }

/-- eDVS state with a sensor resolution small enough that a masked coordinate
can exceed it. -/
def eSmallCfg : Edvs.State :=
  { timestamps := ⟨0, 0, 5, 0, 0⟩
    containerAllocated := true
    currentPolarityPacket := some ⟨4, []⟩
    currentPolarityPacketPosition := 0
    currentSpecialPacket := some ⟨4, []⟩
    currentSpecialPacketPosition := 0
    currentPacketContainerCommitTimestamp := 1000000
    maxPacketContainerInterval := 10000
    maxPacketContainerPacketSize := 0
    dvsTSReset := false
    running := true
    config := ⟨16, 16, 4, 4⟩ }

/-- C7: out-of-range coordinates are rejected per event.  On the DV Explorer a
Y address at or beyond sizeY leaves the whole state (including the stored
lastY that burst tokens reuse) untouched, aborts nothing, and logs the
rejection.  On the eDVS a pixel outside the configured array is dropped --
only the timestamp trunk advances, the polarity packet is untouched -- with
the out-of-range coordinates logged and no abort. -/
theorem claim_C7_range_rejection :
    (∀ (env : Dvx.Env) (st : Dvx.State) (ev : Nat),
      ev &&& 0x8000 = 0 → (ev &&& 0x7000) >>> 12 = 1 →
      st.dvs.sizeY ≤ (ev &&& 0x0FFF) &&& 0x03FF →
      Dvx.handleEvent env st ev =
        (st, false, false,
          (if (ev &&& 0x0FFF) &&& 0x0800 ≠ 0 then [Dvx.Log.startOfFrameMarker] else [])
            ++ [Dvx.Log.yOutOfRange])) ∧
    (∀ (st : Edvs.State) (wa ls sTS : Int) (y x : Nat),
      ¬(x &&& Edvs.LOW_BITS_MASK < st.config.arraySizeX ∧
        y &&& Edvs.LOW_BITS_MASK < st.config.arraySizeY) →
      (Edvs.tokenTimestampAndEvent.tokenPixel st wa ls sTS y x).1 =
        Edvs.initContainerCommitTimestamp { st with timestamps :=
          ⟨st.timestamps.wrapOverflow, wa, ls, st.timestamps.current, wa + sTS⟩ } ∧
      (Edvs.tokenTimestampAndEvent.tokenPixel st wa ls sTS y x).2.1 = false ∧
      (Edvs.tokenTimestampAndEvent.tokenPixel st wa ls sTS y x).2.2.1 = false ∧
      (Edvs.tokenTimestampAndEvent.tokenPixel st wa ls sTS y x).2.2.2 =
        (if wa + sTS < st.timestamps.current then [Edvs.Log.nonMonotonicTimestamp] else [])
          ++ (if st.config.arraySizeX ≤ x &&& Edvs.LOW_BITS_MASK then [Edvs.Log.xOutOfRange]
              else [])
          ++ (if st.config.arraySizeY ≤ y &&& Edvs.LOW_BITS_MASK then [Edvs.Log.yOutOfRange]
              else [])) := by
  constructor
  · intro env st ev h1 h2 h3
    have hy : Dvx.handleYToken st (ev &&& 0x0FFF) =
        (st, false, false,
          (if (ev &&& 0x0FFF) &&& 0x0800 ≠ 0 then [Dvx.Log.startOfFrameMarker] else [])
            ++ [Dvx.Log.yOutOfRange]) := by
      simp only [Dvx.handleYToken]
      rw [if_pos h3]
    simp only [Dvx.handleEvent, h1, h2]
    norm_num
    rw [hy]
    by_cases hc : ev &&& 4095 &&& 2048 = 0 <;> simp [hc]
  · intro st wa ls sTS y x hNot
    simp only [Edvs.tokenTimestampAndEvent.tokenPixel]
    rw [if_neg hNot]
    exact ⟨rfl, rfl, rfl, rfl⟩

/-- C7 witness: a rejected Y address on the DV Explorer and a rejected pixel
on the eDVS. -/
theorem claim_C7_witness :
    (Dvx.handleEvent Dvx.Env.ok dRange 0x11F4 =
      (dRange, false, false, [Dvx.Log.yOutOfRange])) ∧
    ((Edvs.tokenTimestampAndEvent.tokenPixel eSmallCfg 0 5 5 20 20).1 =
        Edvs.initContainerCommitTimestamp { eSmallCfg with timestamps := ⟨0, 0, 5, 0, 0 + 5⟩ } ∧
      (Edvs.tokenTimestampAndEvent.tokenPixel eSmallCfg 0 5 5 20 20).2.1 = false ∧
      (Edvs.tokenTimestampAndEvent.tokenPixel eSmallCfg 0 5 5 20 20).2.2.1 = false ∧
      (Edvs.tokenTimestampAndEvent.tokenPixel eSmallCfg 0 5 5 20 20).2.2.2 =
        [Edvs.Log.xOutOfRange, Edvs.Log.yOutOfRange]) := by
  constructor
  · exact claim_C7_range_rejection.1 Dvx.Env.ok dRange 0x11F4 (by decide) (by decide) (by decide)
  · have h := claim_C7_range_rejection.2 eSmallCfg 0 5 5 20 20 (by decide)
    exact ⟨h.1, h.2.1, h.2.2.1, by rw [h.2.2.2]; decide⟩

end Libcaer

namespace Libcaer

/-- eDVS environment in which growing the polarity packet fails. -/
def envGrowFail : Edvs.Env := ⟨true, true, false, true, true, true, true, true⟩

/-- eDVS state whose polarity packet is full, so the next pixel needs a grow. -/
def eFull : Edvs.State :=
  { timestamps := ⟨0, 0, 0, 0, 0⟩
    containerAllocated := true
    currentPolarityPacket := some ⟨1, [⟨0, 1, 1, false⟩]⟩
    currentPolarityPacketPosition := 1
    currentSpecialPacket := some ⟨4, []⟩
    currentSpecialPacketPosition := 0
    currentPacketContainerCommitTimestamp := 1000000
    maxPacketContainerInterval := 10000
    maxPacketContainerPacketSize := 0
    dvsTSReset := false
    running := true
    config := ⟨128, 128, 4, 4⟩ }

/-- DV Explorer environment in which growing the polarity packet fails. -/
def envDvxGrowFail : Dvx.Env := ⟨true, true, true, true, true, false, true, true, true⟩

/-- DV Explorer state whose polarity packet cannot take a full 8-pixel group. -/
def dBase8 : Dvx.State :=
  { timestamps := ⟨0, 0, 0, 0, 0⟩
    container := ⟨true, 1000000, 10000, 0⟩
    specialPacket := some ⟨4, []⟩
    specialPosition := 0
    polarityPacket := some ⟨4, []⟩
    polarityPosition := 0
    imu6Packet := some ⟨4, []⟩
    imu6Position := 0
    dvs := ⟨0, 0, 640, 480, false⟩
    imu := ⟨false, 0, 0, 0, 0, 0, false, false, false, Dvx.Imu6Event.zero⟩
    running := true
    config := ⟨4, 4, 4⟩ }

/-- C8 counterexample: on the eDVS a packet-grow failure is fatal to the rest
of the chunk.  With a full polarity packet and a failing grow, an 8-byte
buffer holding two tokens yields only the grow diagnostic and the second
token is never decoded (its timestamp field 9 is not taken up), whereas with
a successful environment it is. -/
theorem claim_C8_counterexample :
    (Edvs.edvsEventTranslator [envGrowFail, Edvs.Env.ok] eFull
        [0x80, 0x05, 0x00, 0x07, 0x80, 0x06, 0x00, 0x09]).logs
      = [Edvs.Log.growPolarityFailed] ∧
    Edvs.Log.growPolarityFailed.severity = LogSeverity.critical ∧
    (Edvs.edvsEventTranslator [envGrowFail, Edvs.Env.ok] eFull
        [0x80, 0x05, 0x00, 0x07, 0x80, 0x06, 0x00, 0x09]).state.timestamps.lastShort ≠ 9 ∧
    (Edvs.edvsEventTranslator [Edvs.Env.ok, Edvs.Env.ok] eFull
        [0x80, 0x05, 0x00, 0x07, 0x80, 0x06, 0x00, 0x09]).state.timestamps.lastShort = 9 := by
  refine ⟨by decide, rfl, by decide, by decide⟩

/-- C8 amended: on the DV Explorer a grow failure is indeed non-fatal -- the
triggering events are dropped with a critical log and the step never aborts
(only a packet or reset-container allocation failure aborts) -- but on the
eDVS an aborting token makes the translator abandon the rest of the buffer. -/
theorem claim_C8_grow_failure :
    (∀ (env : Dvx.Env) (st : Dvx.State) (code data : Nat) (p : CaerPacket PolarityEvent),
      st.polarityPacket = some p →
      env.growPolarityOk = false →
      p.capacity < st.polarityPosition + 8 →
      Dvx.handleGroupToken env st code data =
        (st, false, false, [Dvx.Log.growPacketFailed])) ∧
    Dvx.Log.growPacketFailed.severity = LogSeverity.critical ∧
    (∀ (env : Dvx.Env) (st : Dvx.State) (ev : Nat),
      (Dvx.allocatePackets env st).2.2 = true →
      env.allocTsResetOk = true →
      (Dvx.processEvent env st ev).aborted = false) ∧
    (∀ (envs : List Edvs.Env) (st : Edvs.State) (y x t1 t2 : Nat) (rest : List Nat),
      y &&& Edvs.HIGH_BIT_MASK = Edvs.HIGH_BIT_MASK →
      (Edvs.processToken (envs.headD Edvs.Env.ok) st y x t1 t2).aborted = true →
      Edvs.translateLoop envs st (y :: x :: t1 :: t2 :: rest) =
        ⟨(Edvs.processToken (envs.headD Edvs.Env.ok) st y x t1 t2).state,
         (Edvs.processToken (envs.headD Edvs.Env.ok) st y x t1 t2).delivered,
         (Edvs.processToken (envs.headD Edvs.Env.ok) st y x t1 t2).logs⟩) ∧
    (∀ (env : Edvs.Env) (st : Edvs.State) (y x t1 t2 : Nat),
      (Edvs.allocatePackets env st).2.2 = false →
      (Edvs.processToken env st y x t1 t2).aborted = true) := by
  refine ⟨?_, rfl, ?_, ?_, ?_⟩
  · intro env st code data p hP hG hCap
    have hc : ¬(st.polarityPosition + 8 ≤ p.capacity) := by omega
    simp only [Dvx.handleGroupToken, Dvx.ensureSpaceForEvents, hP, Option.getD_some, hG,
      if_neg hc, Bool.false_eq_true, if_false, ite_false]
    rw [← hP]
  · intro env st ev hA hR
    obtain ⟨st1, hEq, _⟩ := Dvx.allocatePackets_success_dvx env st hA
    simp only [Dvx.processEvent, hEq]
    show (Dvx.commitLogic env _ _ _).aborted = false
    simp only [Dvx.commitLogic, Dvx.containerGenerationExecute]
    split_ifs <;> simp_all
  · intro envs st y x t1 t2 rest hAlign hAb
    simp only [Edvs.translateLoop, hAlign, ne_eq, not_true_eq_false, if_false, hAb, if_true,
      ite_false, ite_true]
  · intro env st y x t1 t2 h
    simp only [Edvs.processToken]
    rcases hA : Edvs.allocatePackets env st with ⟨s1, logs, flag⟩
    rw [hA] at h
    simp at h
    subst h
    rfl

/-- C8 witness: a failing grow at a concrete full packet on each decoder. -/
theorem claim_C8_witness :
    (Dvx.handleGroupToken envDvxGrowFail dBase8 2 0 =
      (dBase8, false, false, [Dvx.Log.growPacketFailed])) ∧
    ((Dvx.processEvent envDvxGrowFail dBase8 0x2000).aborted = false) ∧
    (Edvs.translateLoop [envGrowFail] eFull [0x80, 0x05, 0x00, 0x07, 1, 2, 3, 4] =
      ⟨(Edvs.processToken envGrowFail eFull 0x80 0x05 0x00 0x07).state,
       (Edvs.processToken envGrowFail eFull 0x80 0x05 0x00 0x07).delivered,
       (Edvs.processToken envGrowFail eFull 0x80 0x05 0x00 0x07).logs⟩) ∧
    ((Edvs.processToken envGrowFail eFull 0x80 0x05 0x00 0x07).aborted = true) := by
  have h3 := claim_C8_grow_failure.2.2.2.1 [envGrowFail] eFull 0x80 0x05 0x00 0x07 [1, 2, 3, 4]
    (by decide) (by decide)
  exact ⟨claim_C8_grow_failure.1 envDvxGrowFail dBase8 2 0 ⟨4, []⟩ rfl rfl (by decide),
    claim_C8_grow_failure.2.2.1 envDvxGrowFail dBase8 0x2000 (by decide) rfl,
    h3,
    claim_C8_grow_failure.2.2.2.2 envGrowFail eFull 0x80 0x05 0x00 0x07 (by decide)⟩

end Libcaer

namespace Libcaer

def eBase9 : Edvs.State :=
  { timestamps := ⟨0, 0, 0, 0, 0⟩
    containerAllocated := true
    currentPolarityPacket := some ⟨4, []⟩
    currentPolarityPacketPosition := 0
    currentSpecialPacket := some ⟨4, []⟩
    currentSpecialPacketPosition := 0
    currentPacketContainerCommitTimestamp := 1000000
    maxPacketContainerInterval := 10000
    maxPacketContainerPacketSize := 0
    dvsTSReset := false
    running := true
    config := ⟨128, 128, 4, 4⟩ }

def dBase9 : Dvx.State :=
  { timestamps := ⟨0, 0, 0, 0, 0⟩
    container := ⟨true, 1000000, 10000, 0⟩
    specialPacket := some ⟨4, []⟩
    specialPosition := 0
    polarityPacket := some ⟨4, []⟩
    polarityPosition := 0
    imu6Packet := some ⟨4, []⟩
    imu6Position := 0
    dvs := ⟨0, 0, 640, 480, false⟩
    imu := ⟨false, 0, 0, 0, 0, 0, false, false, false, Dvx.Imu6Event.zero⟩
    running := true
    config := ⟨4, 4, 4⟩ }

/-- C9 counterexample: the eDVS drops a trailing partial 4-byte record
silently.  On a 7-byte buffer the complete first token is consumed (its
timestamp field 7 is taken up) but the trailing 3 bytes produce no log at
all. -/
theorem claim_C9_counterexample :
    (Edvs.edvsEventTranslator [Edvs.Env.ok] eBase9
        [0x80, 0x05, 0x00, 0x07, 0x80, 0x06, 0x00]).logs = [] ∧
    (Edvs.edvsEventTranslator [Edvs.Env.ok] eBase9
        [0x80, 0x05, 0x00, 0x07, 0x80, 0x06, 0x00]).state.timestamps.lastShort = 7 :=
  ⟨by decide, by decide⟩

/-- C9 amended: both decoders consume all complete tokens and drop a trailing
incomplete one, but only the 16-bit-word protocol logs the drop: the DV
Explorer truncates a trailing odd byte with an alert log and decodes the even
prefix, while the eDVS returns on a trailing partial record without any log. -/
theorem claim_C9_partial_token :
    (∀ (envs : List Dvx.Env) (st : Dvx.State) (buffer : List Nat),
      st.running = true → buffer.length % 2 = 1 →
      Dvx.dvExplorerEventTranslator envs st buffer =
        ⟨(Dvx.translateLoop envs st (buffer.take (buffer.length - 1))).state,
         (Dvx.translateLoop envs st (buffer.take (buffer.length - 1))).delivered,
         Dvx.Log.oddBufferLength ::
           (Dvx.translateLoop envs st (buffer.take (buffer.length - 1))).logs⟩) ∧
    (Dvx.Log.oddBufferLength.severity = LogSeverity.alert) ∧
    (∀ (buffer : List Nat), buffer.length % 2 = 1 →
      (buffer.take (buffer.length - 1)).length % 2 = 0) ∧
    (∀ (envs : List Edvs.Env) (st : Edvs.State) (y : Nat) (rest : List Nat),
      y &&& Edvs.HIGH_BIT_MASK = Edvs.HIGH_BIT_MASK → rest.length < 3 →
      Edvs.translateLoop envs st (y :: rest) = ⟨st, [], []⟩) := by
  refine ⟨?_, rfl, ?_, ?_⟩
  · intro envs st buffer hRun hOdd
    have h2 : buffer.length % 2 ≠ 0 := by omega
    simp only [Dvx.dvExplorerEventTranslator, hRun, Bool.not_true, Bool.false_eq_true, if_false,
      ite_false, if_pos h2]
  · intro buffer h
    rw [List.length_take]
    omega
  · intro envs st y rest hAlign hLen
    rcases rest with _ | ⟨a, rest⟩
    · simp [Edvs.translateLoop, hAlign]
    · rcases rest with _ | ⟨b, rest⟩
      · simp [Edvs.translateLoop, hAlign]
      · rcases rest with _ | ⟨c, rest⟩
        · simp [Edvs.translateLoop, hAlign]
        · simp at hLen
          omega
/-- C9 witness: a 3-byte buffer on the DV Explorer and a 3-byte trailing
fragment on the eDVS. -/
theorem claim_C9_witness :
    (Dvx.dvExplorerEventTranslator [Dvx.Env.ok] dBase9 [0x12, 0x34, 0x56] =
      ⟨(Dvx.translateLoop [Dvx.Env.ok] dBase9 [0x12, 0x34]).state,
       (Dvx.translateLoop [Dvx.Env.ok] dBase9 [0x12, 0x34]).delivered,
       Dvx.Log.oddBufferLength :: (Dvx.translateLoop [Dvx.Env.ok] dBase9 [0x12, 0x34]).logs⟩) ∧
    (([0x12, 0x34, 0x56] : List Nat).take 2).length % 2 = 0 ∧
    (Edvs.translateLoop [Edvs.Env.ok] eBase9 [0x80, 0x06, 0x00] = ⟨eBase9, [], []⟩) := by
  have h1 := claim_C9_partial_token.1 [Dvx.Env.ok] dBase9 [0x12, 0x34, 0x56] rfl (by decide)
  have h3 := claim_C9_partial_token.2.2.1 [0x12, 0x34, 0x56] (by decide)
  have h4 := claim_C9_partial_token.2.2.2 [Edvs.Env.ok] eBase9 0x80 [0x06, 0x00]
    (by decide) (by decide)
  exact ⟨h1, h3, h4⟩

end Libcaer
